import Mathlib

/-!
# VendreFacile API: listing filter composer and conversation broker

A shallow embedding of `src/api/src/index.js` (the handlers `GET /api/annonces`,
`POST /api/conversations`, `GET` and `POST /api/conversations/:id/messages`) and of the
tables of `src/api/src/initDb.js` they touch.

Conventions of the embedding.

* A value of `req.query` is what the query-string parser of Express yields: a string, an
  array (a repeated key) or an object (a bracketed key); `none` is an absent key.  Where
  the handler calls `toLowerCase` on a value that is not a string, or `parseInt` on a value
  whose conversion to a string throws, the handler throws and composes no statement.
* JavaScript numbers that the handlers compute come from `parseInt`, `Math.max`, one
  subtraction and one product.  They are kept as the IEEE doubles they are: `NaN`, the two
  infinities, and integers, every result rounded to the nearest double (ties to even).  The
  two zeros are not told apart: `toString` prints both as `0` and nothing here divides.
* The composed condition list is kept as a list of templates (`Cond`), one constructor per
  template literal of the source; `Cond.render` gives back the text the source pushes.
* What the platform supplies (`String.prototype.toLowerCase`, PostgreSQL `LOWER`, the
  conversion of a text parameter to `numeric` and to `integer`, and the text the driver
  sends for a parameter that is not a string) is a parameter, `Platform`.
* Both connection pools are taken to address the same database state.
-/

namespace VendreFacile

/-! ## JavaScript values -/

/-- A JavaScript number produced by `parseInt` and integer arithmetic: `NaN`, an infinity,
or an integer-valued double. -/
inductive JsNum where
  | nan
  | posInf
  | negInf
  | int (n : Int)
  deriving DecidableEq, Repr

/-- Halve `q` until it fits in 53 bits.  Alongside the quotient: the last bit shifted out,
whether any bit shifted out before it was set, and the number of halvings. -/
def shiftLoop : Nat → Nat → Bool → Bool → Nat → Nat × Bool × Bool × Nat
  | 0, q, g, s, e => (q, g, s, e)
  | fuel + 1, q, g, s, e =>
    if q < 9007199254740992 then (q, g, s, e)
    else shiftLoop fuel (q / 2) (q % 2 == 1) (s || g) (e + 1)

/-- The value `x * 2 ^ e`, by `e` doublings. -/
def doubleTimes : Nat → Nat → Nat
  | 0, x => x
  | e + 1, x => doubleTimes e (2 * x)

/-- The double nearest to a natural number, ties to the even significand; `none` when the
result exceeds the largest finite double, `(2 ^ 53 - 1) * 2 ^ 971`. -/
def roundNat (n : Nat) : Option Nat :=
  match shiftLoop n n false false 0 with
  | (q, g, s, e) =>
    let q1 := if g && (s || q % 2 == 1) then q + 1 else q
    if 972 ≤ e || (e == 971 && q1 == 9007199254740992) then none
    else some (doubleTimes e q1)

/-- The Number value for a mathematical integer. -/
def JsNum.ofInt (n : Int) : JsNum :=
  match roundNat n.natAbs with
  | none => if n < 0 then .negInf else .posInf
  | some m => .int (if n < 0 then -(m : Int) else m)

/-- `Math.max(1, x)`. -/
def JsNum.max1 : JsNum → JsNum
  | .nan => .nan
  | .posInf => .posInf
  | .negInf => .int 1
  | .int n => .int (max 1 n)

/-- `x - 1`. -/
def JsNum.pred : JsNum → JsNum
  | .nan => .nan
  | .posInf => .posInf
  | .negInf => .negInf
  | .int n => .ofInt (n - 1)

/-- `x * y`. -/
def JsNum.mul : JsNum → JsNum → JsNum
  | .nan, _ => .nan
  | _, .nan => .nan
  | .int a, .int b => .ofInt (a * b)
  | .int a, .posInf => if a = 0 then .nan else if 0 < a then .posInf else .negInf
  | .int a, .negInf => if a = 0 then .nan else if 0 < a then .negInf else .posInf
  | .posInf, .int b => if b = 0 then .nan else if 0 < b then .posInf else .negInf
  | .negInf, .int b => if b = 0 then .nan else if 0 < b then .negInf else .posInf
  | .posInf, .posInf => .posInf
  | .posInf, .negInf => .negInf
  | .negInf, .posInf => .negInf
  | .negInf, .negInf => .posInf

/-- The white space that `parseInt` skips (ECMAScript `StrWhiteSpaceChar`). -/
def isStrWhiteSpaceChar (c : Char) : Bool :=
  let n := c.toNat
  n == 9 || n == 10 || n == 11 || n == 12 || n == 13 || n == 32 || n == 160 ||
  n == 5760 || (8192 ≤ n && n ≤ 8202) || n == 8232 || n == 8233 || n == 8239 ||
  n == 8287 || n == 12288 || n == 65279

/-- Value of a character as a digit, for radixes up to 16. -/
def digitValue (c : Char) : Option Nat :=
  let n := c.toNat
  if 48 ≤ n ∧ n ≤ 57 then some (n - 48)
  else if 97 ≤ n ∧ n ≤ 102 then some (n - 87)
  else if 65 ≤ n ∧ n ≤ 70 then some (n - 55)
  else none

/-- The longest leading run of radix-`R` digits, as digit values. -/
def takeDigits (R : Nat) : List Char → List Nat
  | [] => []
  | c :: cs =>
    match digitValue c with
    | some d => if d < R then d :: takeDigits R cs else []
    | none => []

/-- Value of a digit list in radix `R`, most significant digit first. -/
def digitsValue (R : Nat) (ds : List Nat) : Nat :=
  ds.foldl (fun acc d => acc * R + d) 0

/-- Steps 4 to 10 of `parseInt(string)` with no radix argument, after the sign: the value
of the digit run as a Number, hence rounded to the nearest double.  (The standard lets an
implementation drop decimal digits after the twentieth; Node rounds the exact value.) -/
def parseIntBody (neg : Bool) (S : List Char) : JsNum :=
  let hex : Bool :=
    match S with
    | c0 :: c1 :: _ => c0 == '0' && (c1 == 'x' || c1 == 'X')
    | _ => false
  let R : Nat := if hex then 16 else 10
  let S1 : List Char := if hex then S.drop 2 else S
  let Z := takeDigits R S1
  if Z.isEmpty then .nan
  else
    let m : Int := (digitsValue R Z : Nat)
    .ofInt (if neg then -m else m)

/-- `parseInt(string)` of ECMAScript, radix omitted. -/
def parseInt (input : String) : JsNum :=
  let S := input.data.dropWhile isStrWhiteSpaceChar
  match S with
  | '-' :: rest => parseIntBody true rest
  | '+' :: rest => parseIntBody false rest
  | _ => parseIntBody false S

/-- An exception thrown by the handler's own code. -/
inductive JsError where
  /-- A TypeError, with its message. -/
  | typeError (message : String)
  deriving DecidableEq, Repr

/-- A value of `req.query`: a string, an array, or an object with its keys in order. -/
inductive QVal where
  | str (s : String)
  | arr (items : List QVal)
  | obj (fields : List (String × QVal))

/-- `Array.prototype.join` with the separator `,`. -/
def joinComma : List String → String
  | [] => ""
  | [s] => s
  | s :: t => s ++ "," ++ joinComma t

mutual
/-- ECMAScript `ToString` on a query value: a string is itself, an array is its elements
joined by commas, an object is `[object Object]`.  An object with a key `toString` of its
own hides the inherited method behind a value that cannot be called, and the conversion
throws. -/
def QVal.toJsString : QVal → Except JsError String
  | .str s => .ok s
  | .arr items =>
    match QVal.toJsStrings items with
    | .ok texts => .ok (joinComma texts)
    | .error e => .error e
  | .obj fields =>
    if fields.any (fun f => f.1 == "toString") then
      .error (.typeError "Cannot convert object to primitive value")
    else .ok "[object Object]"
/-- `ToString` of each element of an array, left to right. -/
def QVal.toJsStrings : List QVal → Except JsError (List String)
  | [] => .ok []
  | v :: vs =>
    match v.toJsString with
    | .error e => .error e
    | .ok text =>
      match QVal.toJsStrings vs with
      | .ok texts => .ok (text :: texts)
      | .error e => .error e
end

/-- JavaScript truthiness of a query value: only the empty string is falsy. -/
def QVal.truthy : QVal → Bool
  | .str s => s != ""
  | _ => true

/-- JavaScript truthiness of a possibly absent query value. -/
def truthy : Option QVal → Bool
  | none => false
  | some v => v.truthy

/-- `v === s` for a string literal `s`. -/
def QVal.is (v : QVal) (s : String) : Bool :=
  match v with
  | .str t => t == s
  | _ => false

/-! ## The platform -/

/-- What the runtime, the driver and the store supply and the repository does not define. -/
structure Platform where
  /-- JavaScript `String.prototype.toLowerCase`. -/
  toLowerCase : String → String
  /-- PostgreSQL `LOWER`. -/
  sqlLower : String → String
  /-- PostgreSQL input conversion of a text parameter to `numeric`; `none` is a rejection. -/
  toNumeric : String → Option ℚ
  /-- PostgreSQL input conversion of a text parameter to `integer`; `none` is a rejection. -/
  toInteger : String → Option Int
  /-- The text the driver sends for an array or an object. -/
  valueText : QVal → String
  /-- The text the driver sends for a number, `Number.prototype.toString`. -/
  numberText : JsNum → String

/-- The text the driver sends for a query value: a string goes as it is. -/
def Platform.textOf (P : Platform) : QVal → String
  | .str s => s
  | v => P.valueText v

/-! ## GET /api/annonces: the filter composer -/

/-- The query-string parameters read at line 99 (`req.query`). -/
structure Query where
  category_id : Option QVal := none
  city : Option QVal := none
  price_min : Option QVal := none
  price_max : Option QVal := none
  q : Option QVal := none
  status : Option QVal := none
  page : Option QVal := none
  limit : Option QVal := none

/-- A value of the `params` array handed to the driver: a query value pushed as it came (or
a pattern string built from one), or a number. -/
inductive Param where
  | val (v : QVal)
  | num (n : JsNum)

/-- The condition templates pushed on `conds`; `k` is the placeholder number. -/
inductive Cond where
  | statusActive
  | statusEq (k : Nat)
  | categoryEq (k : Nat)
  | cityLike (k : Nat)
  | priceGe (k : Nat)
  | priceLe (k : Nat)
  | textLike (k : Nat)
  deriving DecidableEq, Repr

/-- The text of a condition, as the template literal of the source produces it. -/
def Cond.render : Cond → String
  | .statusActive => "a.status='active'"
  | .statusEq k => "a.status=$" ++ toString k
  | .categoryEq k => "a.category_id=$" ++ toString k
  | .cityLike k => "LOWER(a.city) LIKE $" ++ toString k
  | .priceGe k => "a.price >= $" ++ toString k
  | .priceLe k => "a.price <= $" ++ toString k
  | .textLike k =>
    "(LOWER(a.title) LIKE $" ++ toString k ++ " OR LOWER(a.description) LIKE $" ++
      toString k ++ ")"

/-- The three mutable locals of the handler: `conds`, `params` and `i`. -/
structure Builder where
  conds : List Cond
  params : List Param
  i : Nat

/-- The step `conds.push(template with $i); params.push(v); i++`. -/
def Builder.push (b : Builder) (mk : Nat → Cond) (v : Param) : Builder :=
  { conds := b.conds ++ [mk b.i], params := b.params ++ [v], i := b.i + 1 }

/-- Lines 103 to 108: the status policy. -/
def addStatus (status : Option QVal) (b : Builder) : Builder :=
  match status with
  | none => { b with conds := b.conds ++ [Cond.statusActive] }
  | some v =>
    if !v.truthy || v.is "active" then
      { b with conds := b.conds ++ [Cond.statusActive] }
    else if !v.is "all" then
      b.push Cond.statusEq (.val v)
    else b

/-- Line 109. -/
def addCategory (category_id : Option QVal) (b : Builder) : Builder :=
  match category_id with
  | none => b
  | some v => if v.truthy then b.push Cond.categoryEq (.val v) else b

/-- Line 110.  A truthy value that is not a string has no `toLowerCase`: the call throws. -/
def addCity (P : Platform) (city : Option QVal) (b : Builder) : Except JsError Builder :=
  match city with
  | none => .ok b
  | some (.str s) =>
    if s != "" then
      .ok (b.push Cond.cityLike (.val (.str ("%" ++ P.toLowerCase s ++ "%"))))
    else .ok b
  | some _ => .error (.typeError "city.toLowerCase is not a function")

/-- Line 111. -/
def addPriceMin (price_min : Option QVal) (b : Builder) : Builder :=
  match price_min with
  | none => b
  | some v => if v.truthy then b.push Cond.priceGe (.val v) else b

/-- Line 112. -/
def addPriceMax (price_max : Option QVal) (b : Builder) : Builder :=
  match price_max with
  | none => b
  | some v => if v.truthy then b.push Cond.priceLe (.val v) else b

/-- Line 113.  As line 110: a truthy value that is not a string throws. -/
def addText (P : Platform) (q : Option QVal) (b : Builder) : Except JsError Builder :=
  match q with
  | none => .ok b
  | some (.str s) =>
    if s != "" then
      .ok (b.push Cond.textLike (.val (.str ("%" ++ P.toLowerCase s ++ "%"))))
    else .ok b
  | some _ => .error (.typeError "q.toLowerCase is not a function")

/-- Lines 100 to 113: the locals after all criteria have been examined, or the exception
thrown on the way. -/
def filters (P : Platform) (query : Query) : Except JsError Builder :=
  match addCity P query.city
      (addCategory query.category_id
        (addStatus query.status { conds := [], params := [], i := 1 })) with
  | .error e => .error e
  | .ok b => addText P query.q (addPriceMax query.price_max (addPriceMin query.price_min b))

/-- `parseInt(v)` on a query value: `ToString`, which may throw, then the parse. -/
def parseIntOf (v : QVal) : Except JsError JsNum :=
  match v.toJsString with
  | .ok text => .ok (parseInt text)
  | .error e => .error e

/-- `parseInt(page)` with the destructuring default `page = 1`. -/
def pageNumber (query : Query) : Except JsError JsNum :=
  match query.page with
  | none => .ok (.int 1)
  | some v => parseIntOf v

/-- `parseInt(limit)` with the destructuring default `limit = 20`. -/
def limitNumber (query : Query) : Except JsError JsNum :=
  match query.limit with
  | none => .ok (.int 20)
  | some v => parseIntOf v

/-- Line 115 on the two parsed numbers: `(Math.max(1, page) - 1) * limit`. -/
def offsetOf (page limit : JsNum) : JsNum :=
  page.max1.pred.mul limit

/-- Line 115: `(Math.max(1, parseInt(page)) - 1) * parseInt(limit)`, the page parsed
first. -/
def offsetNumber (query : Query) : Except JsError JsNum :=
  match pageNumber query with
  | .error e => .error e
  | .ok page =>
    match limitNumber query with
    | .error e => .error e
    | .ok limit => .ok (offsetOf page limit)

/-- `conds.join(' AND ')`. -/
def joinAnd : List String → String
  | [] => ""
  | [s] => s
  | s :: t => s ++ " AND " ++ joinAnd t

/-- Lines 118 to 125: the query text for the given conditions and placeholder counter. -/
def sqlText (conds : List Cond) (i : Nat) : String :=
  "\n    SELECT a.*, u.username AS seller_name, c.name AS category_name" ++
  "\n    FROM annonces a" ++
  "\n    JOIN users u ON u.id = a.user_id" ++
  "\n    LEFT JOIN categories c ON c.id = a.category_id" ++
  "\n    " ++
  (if conds.length != 0 then "WHERE " ++ joinAnd (conds.map Cond.render) else "") ++
  "\n    ORDER BY a.created_at DESC" ++
  "\n    LIMIT $" ++ toString i ++ " OFFSET $" ++ toString (i + 1)

/-- The composed statement: the condition list, the text built from it, and the parameter
array.  The text and the array are what the handler hands to `readPool.query`; the
condition list is what the WHERE clause of the text is rendered from. -/
structure Composed where
  conds : List Cond
  sql : String
  params : List Param

/-- Lines 116 to 125, from the locals left by the criteria and the two numbers of line 115
and line 116. -/
def statement (b : Builder) (limit offset : JsNum) : Composed :=
  { conds := b.conds
    sql := sqlText b.conds b.i
    params := b.params ++ [.num limit, .num offset] }

/-- Lines 99 to 127: the composed statement and its parameters, or the exception thrown
before any statement exists. -/
def compose (P : Platform) (query : Query) : Except JsError Composed :=
  match filters P query with
  | .error e => .error e
  | .ok b =>
    match offsetNumber query with
    | .error e => .error e
    | .ok offset =>
      match limitNumber query with
      | .error e => .error e
      | .ok limit => .ok (statement b limit offset)
/-! ## The store's evaluation of the composed WHERE clause -/

/-- Errors the store reports, by SQLSTATE class. -/
inductive DbError where
  /-- 22P02: a text parameter is not valid input for the type its placeholder has. -/
  | invalidTextRepresentation
  /-- 08P01: the statement names a placeholder for which no parameter was bound. -/
  | missingParameter
  /-- 23505: a primary key or UNIQUE constraint. -/
  | uniqueViolation (constraintName : String)
  /-- 23503: a REFERENCES constraint. -/
  | foreignKeyViolation (constraintName : String)
  /-- 23502: a NOT NULL column. -/
  | notNullViolation (column : String)
  deriving DecidableEq, Repr

deriving instance DecidableEq for Except

/-- A row of `annonces`, with the columns the handlers consult. -/
structure Annonce where
  id : Nat
  title : String
  description : Option String
  price : Option ℚ
  city : Option String
  category_id : Option Int
  user_id : Nat
  status : Option String
  deriving DecidableEq, Repr

/-- The driver sends every parameter as text: a string as it is, a number by `toString`. -/
def Param.wire (P : Platform) : Param → String
  | .val v => P.textOf v
  | .num n => P.numberText n

/-- The parameter bound to placeholder `$k` (placeholders count from 1). -/
def paramAt (P : Platform) (params : List Param) (k : Nat) : Except DbError String :=
  if k = 0 then .error .missingParameter
  else
    match params.get? (k - 1) with
    | some v => .ok (v.wire P)
    | none => .error .missingParameter

/-- Does some suffix of the text satisfy `f`. -/
def anySuffix (f : List Char → Bool) : List Char → Bool
  | [] => f []
  | c :: t => f (c :: t) || anySuffix f t

/-- PostgreSQL `text LIKE pattern` with the default escape character: `%` stands for any
run of characters, `_` for one character, and a backslash makes the next pattern character
literal.  A pattern ending in a lone backslash is an error in the store; the composer never
produces one (its patterns end in `%`), and this function answers `false` there. -/
def likeMatch : List Char → List Char → Bool
  | [], t => t.isEmpty
  | p0 :: p, t =>
    if p0 = '%' then anySuffix (likeMatch p) t
    else if p0 = '_' then
      match t with
      | [] => false
      | _ :: t1 => likeMatch p t1
    else if p0 = '\\' then
      match p with
      | [] => false
      | c :: p1 =>
        match t with
        | [] => false
        | c1 :: t1 => c == c1 && likeMatch p1 t1
    else
      match t with
      | [] => false
      | c1 :: t1 => p0 == c1 && likeMatch p t1

/-- SQL `AND` on three-valued truth values (`none` is NULL). -/
def and3 : Option Bool → Option Bool → Option Bool
  | some false, _ => some false
  | _, some false => some false
  | some true, some true => some true
  | _, _ => none

/-- SQL `OR` on three-valued truth values. -/
def or3 : Option Bool → Option Bool → Option Bool
  | some true, _ => some true
  | _, some true => some true
  | some false, some false => some false
  | _, _ => none

/-- `LOWER(column) LIKE pattern` on a nullable text column. -/
def lowerLike (P : Platform) (pattern : String) (column : Option String) : Option Bool :=
  column.map fun v => likeMatch pattern.data (P.sqlLower v).data

/-- The value of one condition on a row, given the bound parameters. -/
def Cond.eval (P : Platform) (params : List Param) (a : Annonce) :
    Cond → Except DbError (Option Bool)
  | .statusActive => .ok (a.status.map fun s => decide (s = "active"))
  | .statusEq k =>
    match paramAt P params k with
    | .error e => .error e
    | .ok v => .ok (a.status.map fun s => decide (s = v))
  | .categoryEq k =>
    match paramAt P params k with
    | .error e => .error e
    | .ok v =>
      match P.toInteger v with
      | none => .error .invalidTextRepresentation
      | some n => .ok (a.category_id.map fun c => decide (c = n))
  | .cityLike k =>
    match paramAt P params k with
    | .error e => .error e
    | .ok v => .ok (lowerLike P v a.city)
  | .priceGe k =>
    match paramAt P params k with
    | .error e => .error e
    | .ok v =>
      match P.toNumeric v with
      | none => .error .invalidTextRepresentation
      | some x => .ok (a.price.map fun p => decide (x ≤ p))
  | .priceLe k =>
    match paramAt P params k with
    | .error e => .error e
    | .ok v =>
      match P.toNumeric v with
      | none => .error .invalidTextRepresentation
      | some x => .ok (a.price.map fun p => decide (p ≤ x))
  | .textLike k =>
    match paramAt P params k with
    | .error e => .error e
    | .ok v => .ok (or3 (lowerLike P v (some a.title)) (lowerLike P v a.description))

/-- The value of `WHERE c1 AND ... AND cn` on a row; no WHERE clause at all is TRUE.  A
parameter the store rejects fails the statement whatever the row. -/
def whereClause (P : Platform) (params : List Param) (a : Annonce) :
    List Cond → Except DbError (Option Bool)
  | [] => .ok (some true)
  | c :: cs =>
    match c.eval P params a, whereClause P params a cs with
    | .ok v, .ok w => .ok (and3 v w)
    | .error e, _ => .error e
    | .ok _, .error e => .error e

/-- Is the row among those the composed statement ranges over, before ORDER BY, LIMIT and
OFFSET apply: the WHERE clause is TRUE on it. -/
def selects (P : Platform) (c : Composed) (a : Annonce) : Except DbError Bool :=
  match whereClause P c.params a c.conds with
  | .ok v => .ok (v == some true)
  | .error e => .error e

/-- Why a request yields no rows: the handler threw, or the store rejected the statement. -/
inductive Failure where
  | thrown (e : JsError)
  | store (e : DbError)
  deriving DecidableEq, Repr

/-- Is the row among those the handler's statement for the request ranges over. -/
def selected (P : Platform) (query : Query) (a : Annonce) : Except Failure Bool :=
  match compose P query with
  | .error e => .error (.thrown e)
  | .ok c =>
    match selects P c a with
    | .ok v => .ok v
    | .error e => .error (.store e)
/-! ## The tables of the messaging handlers

Rows carry the columns the handlers read or write.  `created_at` is not kept: a relation
is a list in insertion order, which is the order of `created_at`.  Identifiers are natural
numbers. -/

/-- A row of `users`. -/
structure User where
  id : Nat
  username : String
  deriving DecidableEq, Repr

/-- A row of `conversations`. -/
structure Conversation where
  id : Nat
  annonce_id : Nat
  buyer_id : Nat
  seller_id : Nat
  deriving DecidableEq, Repr

/-- A row of `messages`. -/
structure Message where
  id : Nat
  conversation_id : Nat
  sender_id : Nat
  content : String
  read : Bool
  deriving DecidableEq, Repr

/-- The database state: the relations and the last values of the two SERIAL sequences. -/
structure Store where
  users : List User
  annonces : List Annonce
  conversations : List Conversation
  messages : List Message
  conversations_id_seq : Nat
  messages_id_seq : Nat
  deriving DecidableEq, Repr

/-- Is there a `users` row with this id. -/
def Store.isUser (s : Store) (id : Nat) : Bool :=
  s.users.any fun u => u.id == id

/-- Is there an `annonces` row with this id. -/
def Store.hasAnnonce (s : Store) (id : Nat) : Bool :=
  s.annonces.any fun a => a.id == id

/-- `SELECT user_id FROM annonces WHERE id=$1`, then `rows[0]`. -/
def Store.ownerOf (s : Store) (annonce_id : Nat) : Option Nat :=
  ((s.annonces.filter fun a => a.id == annonce_id).map fun a => a.user_id).head?

/-- `SELECT * FROM conversations WHERE annonce_id=$1 AND buyer_id=$2`. -/
def Store.conversationsFor (s : Store) (annonce_id buyer_id : Nat) : List Conversation :=
  s.conversations.filter fun c => c.annonce_id == annonce_id && c.buyer_id == buyer_id

/-- `INSERT INTO conversations (annonce_id,buyer_id,seller_id) VALUES ($1,$2,$3) RETURNING *`
under the constraints of the table: the SERIAL primary key, UNIQUE(annonce_id, buyer_id) and
the three REFERENCES.  The sequence advances even when the insert fails. -/
def Store.insertConversation (s : Store) (annonce_id buyer_id seller_id : Nat) :
    Store × Except DbError Conversation :=
  let id := s.conversations_id_seq + 1
  let s1 : Store := { s with conversations_id_seq := id }
  if s.conversations.any (fun c => c.id == id) then
    (s1, .error (.uniqueViolation "conversations_pkey"))
  else if s.conversations.any (fun c => c.annonce_id == annonce_id && c.buyer_id == buyer_id) then
    (s1, .error (.uniqueViolation "conversations_annonce_id_buyer_id_key"))
  else if !s.hasAnnonce annonce_id then
    (s1, .error (.foreignKeyViolation "conversations_annonce_id_fkey"))
  else if !s.isUser buyer_id then
    (s1, .error (.foreignKeyViolation "conversations_buyer_id_fkey"))
  else if !s.isUser seller_id then
    (s1, .error (.foreignKeyViolation "conversations_seller_id_fkey"))
  else
    let row : Conversation :=
      { id := id, annonce_id := annonce_id, buyer_id := buyer_id, seller_id := seller_id }
    ({ s1 with conversations := s.conversations ++ [row] }, .ok row)

/-- The JSON body of a response. -/
inductive Body where
  /-- The object with the single key `error`. -/
  | error (message : String)
  | conversation (row : Conversation)
  | message (row : Message)
  /-- Message rows, each with its `sender_name`. -/
  | messages (rows : List (Message × String))
  /-- The outcome of `res.json(undefined)`. -/
  | undefined
  deriving DecidableEq, Repr

/-- An HTTP response: status code and body. -/
structure Response where
  status : Nat
  body : Body
  deriving DecidableEq, Repr

/-- Lines 224 to 233, the `try` and its `catch`: the insert, and on any failure the lookup
of the conversation of (listing, caller), whose first row is sent with the default status. -/
def openConversation (s : Store) (caller annonce_id owner : Nat) : Store × Response :=
  match s.insertConversation annonce_id caller owner with
  | (s1, .ok row) => (s1, { status := 201, body := .conversation row })
  | (s1, .error _) =>
    match s1.conversationsFor annonce_id caller with
    | [] => (s1, { status := 200, body := .undefined })
    | row :: _ => (s1, { status := 200, body := .conversation row })

/-- Lines 219 to 234, `POST /api/conversations`, for the authenticated `caller`. -/
def postConversations (s : Store) (caller annonce_id : Nat) : Store × Response :=
  match s.ownerOf annonce_id with
  | none => (s, { status := 404, body := .error "Annonce introuvable" })
  | some owner =>
    if owner = caller then
      (s, { status := 400, body := .error "Impossible de se contacter soi-même" })
    else openConversation s caller annonce_id owner

/-- `SELECT * FROM conversations WHERE id=$1 AND (buyer_id=$2 OR seller_id=$2)`. -/
def Store.participantRows (s : Store) (id caller : Nat) : List Conversation :=
  s.conversations.filter fun c => c.id == id && (c.buyer_id == caller || c.seller_id == caller)

/-- The messages of a conversation joined with their senders, oldest first. -/
def Store.messagesOf (s : Store) (id : Nat) : List (Message × String) :=
  (s.messages.filter fun m => m.conversation_id == id).filterMap fun m =>
    (s.users.find? fun u => u.id == m.sender_id).map fun u => (m, u.username)

/-- Lines 236 to 246, `GET /api/conversations/:id/messages`. -/
def getMessages (s : Store) (caller id : Nat) : Response :=
  if (s.participantRows id caller).length = 0 then
    { status := 403, body := .error "Accès refusé" }
  else { status := 200, body := .messages (s.messagesOf id) }

/-- `INSERT INTO messages (conversation_id,sender_id,content) VALUES ($1,$2,$3) RETURNING *`
under the constraints of the table; an absent content is NULL. -/
def Store.insertMessage (s : Store) (conversation_id sender_id : Nat)
    (content : Option String) : Store × Except DbError Message :=
  let id := s.messages_id_seq + 1
  let s1 : Store := { s with messages_id_seq := id }
  match content with
  | none => (s1, .error (.notNullViolation "content"))
  | some text =>
    if s.messages.any (fun m => m.id == id) then
      (s1, .error (.uniqueViolation "messages_pkey"))
    else if !s.conversations.any (fun c => c.id == conversation_id) then
      (s1, .error (.foreignKeyViolation "messages_conversation_id_fkey"))
    else if !s.isUser sender_id then
      (s1, .error (.foreignKeyViolation "messages_sender_id_fkey"))
    else
      let row : Message :=
        { id := id, conversation_id := conversation_id, sender_id := sender_id,
          content := text, read := false }
      ({ s1 with messages := s.messages ++ [row] }, .ok row)

/-- Lines 248 to 257, `POST /api/conversations/:id/messages`.  The insert is outside any
`try`: when it fails the promise is rejected and no response is sent (`.error`). -/
def postMessage (s : Store) (caller id : Nat) (content : Option String) :
    Store × Except DbError Response :=
  if (s.participantRows id caller).length = 0 then
    (s, .ok { status := 403, body := .error "Accès refusé" })
  else
    match s.insertMessage id caller content with
    | (s1, .ok row) => (s1, .ok { status := 201, body := .message row })
    | (s1, .error e) => (s1, .error e)

/-- The placeholder a condition names; the literal status test names none. -/
def Cond.placeholder : Cond → Nat
  | .statusActive => 0
  | .statusEq k => k
  | .categoryEq k => k
  | .cityLike k => k
  | .priceGe k => k
  | .priceLe k => k
  | .textLike k => k

/-- The invariant of the handler's locals: `i` is one more than the number of parameters
pushed, and every placeholder used so far names a parameter already pushed. -/
def Builder.WF (b : Builder) : Prop :=
  b.i = b.params.length + 1 ∧ ∀ c ∈ b.conds, c.placeholder ≤ b.params.length

/-- The conditions pushed so far are all TRUE on the row. -/
def Builder.holds (P : Platform) (b : Builder) (a : Annonce) : Prop :=
  whereClause P b.params a b.conds = .ok (some true)

/-- The six templates that carry a placeholder. -/
def IsTemplate (mk : Nat → Cond) : Prop :=
  mk = Cond.statusEq ∨ mk = Cond.categoryEq ∨ mk = Cond.cityLike ∨ mk = Cond.priceGe ∨
    mk = Cond.priceLe ∨ mk = Cond.textLike

/-- Condition `c` has been pushed and its placeholder names the parameter `v`. -/
def Builder.binds (b : Builder) (c : Cond) (v : Param) : Prop :=
  c ∈ b.conds ∧ c.placeholder ≠ 0 ∧ b.params.get? (c.placeholder - 1) = some v

/-- The locals `b1` are `b` after further pushes: conditions are kept and parameters are
only appended. -/
def Builder.Grows (b b1 : Builder) : Prop :=
  (∀ c ∈ b.conds, c ∈ b1.conds) ∧ ∃ more, b1.params = b.params ++ more

/-- The common form of lines 109, 111 and 112: a truthy value is pushed as it came. -/
def pushIfTruthy (mk : Nat → Cond) (value : Option QVal) (b : Builder) : Builder :=
  match value with
  | none => b
  | some v => if v.truthy then b.push mk (.val v) else b

/-- What the query text is built from: the conditions and the placeholder counter. -/
def Builder.skel (b : Builder) : List Cond × Nat :=
  (b.conds, b.i)

/-- Lines 110 and 113 do not throw on this value: it is absent or a string. -/
def stringOrAbsent : Option QVal → Bool
  | none => true
  | some (.str _) => true
  | some _ => false

/-- `parseInt` does not throw on this value: it is absent or `ToString` succeeds on it. -/
def hasText : Option QVal → Bool
  | none => true
  | some v =>
    match v.toJsString with
    | .ok _ => true
    | .error _ => false

/-- The handler reaches line 127 for this request: neither `toLowerCase` call throws and
neither `parseInt` call does. -/
def Query.composes (query : Query) : Bool :=
  stringOrAbsent query.city && stringOrAbsent query.q &&
    hasText query.page && hasText query.limit

/-- The locals after line 110 when it does not throw. -/
def cityStep (P : Platform) (city : Option QVal) (b : Builder) : Builder :=
  match city with
  | some (.str s) =>
    if s != "" then b.push Cond.cityLike (.val (.str ("%" ++ P.toLowerCase s ++ "%"))) else b
  | _ => b

/-- The locals after line 113 when it does not throw. -/
def textStep (P : Platform) (q : Option QVal) (b : Builder) : Builder :=
  match q with
  | some (.str s) =>
    if s != "" then b.push Cond.textLike (.val (.str ("%" ++ P.toLowerCase s ++ "%"))) else b
  | _ => b

/-- The locals at line 115 when neither `toLowerCase` call throws. -/
def locals (P : Platform) (query : Query) : Builder :=
  textStep P query.q <|
  addPriceMax query.price_max <|
  addPriceMin query.price_min <|
  cityStep P query.city <|
  addCategory query.category_id <|
  addStatus query.status { conds := [], params := [], i := 1 }

/-! ### The criteria, read on a row -/

/-- The visibility policy on a row's status: an absent, empty or "active" request status
admits active rows only, "all" admits every row, any other value admits the rows with
exactly that status (for a value that is not a string: the text the driver sends for
it). -/
def statusPolicy (P : Platform) (status : Option QVal) (rowStatus : Option String) : Prop :=
  match status with
  | none => rowStatus = some "active"
  | some (.str s) =>
    if s = "" ∨ s = "active" then rowStatus = some "active"
    else if s = "all" then True
    else rowStatus = some s
  | some v => rowStatus = some (P.valueText v)

/-- A supplied category is an integer equal to the row's category. -/
def categoryCriterion (P : Platform) (category_id : Option QVal) (a : Annonce) : Prop :=
  ∀ v, category_id = some v → v.truthy = true →
    ∃ n, P.toInteger (P.textOf v) = some n ∧ a.category_id = some n

/-- A supplied city is a string and, lower-cased and wrapped in `%`, a LIKE pattern for the
row's lower-cased city. -/
def cityCriterion (P : Platform) (city : Option QVal) (a : Annonce) : Prop :=
  ∀ v, city = some v → v.truthy = true →
    ∃ s, v = .str s ∧ ∃ t, a.city = some t ∧
      likeMatch ("%" ++ P.toLowerCase s ++ "%").data (P.sqlLower t).data = true

/-- A supplied lower bound is a number not above the row's price. -/
def priceMinCriterion (P : Platform) (price_min : Option QVal) (a : Annonce) : Prop :=
  ∀ v, price_min = some v → v.truthy = true →
    ∃ x, P.toNumeric (P.textOf v) = some x ∧ ∃ p, a.price = some p ∧ x ≤ p

/-- A supplied upper bound is a number not below the row's price. -/
def priceMaxCriterion (P : Platform) (price_max : Option QVal) (a : Annonce) : Prop :=
  ∀ v, price_max = some v → v.truthy = true →
    ∃ x, P.toNumeric (P.textOf v) = some x ∧ ∃ p, a.price = some p ∧ p ≤ x

/-- A supplied free text is a string and, lower-cased and wrapped in `%`, a LIKE pattern for
the row's lower-cased title or for its lower-cased description. -/
def textCriterion (P : Platform) (q : Option QVal) (a : Annonce) : Prop :=
  ∀ v, q = some v → v.truthy = true →
    ∃ s, v = .str s ∧
      (likeMatch ("%" ++ P.toLowerCase s ++ "%").data (P.sqlLower a.title).data = true ∨
        ∃ d, a.description = some d ∧
          likeMatch ("%" ++ P.toLowerCase s ++ "%").data (P.sqlLower d).data = true)

/-! ### Pagination parameters and the shape of a request -/

/-- The value bound to placeholder `$k` in the parameter array of a composed statement. -/
def Composed.bound (c : Composed) (k : Nat) : Option Param :=
  if k = 0 then none else c.params.get? (k - 1)

/-- The parameter bound to the placeholder of `LIMIT`, which is `$i`; `none` when the
handler threw before composing. -/
def limitParam (P : Platform) (query : Query) : Option Param :=
  match filters P query, compose P query with
  | .ok b, .ok c => c.bound b.i
  | _, _ => none

/-- The parameter bound to the placeholder of `OFFSET`, which is `$(i+1)`; `none` when the
handler threw before composing. -/
def offsetParam (P : Platform) (query : Query) : Option Param :=
  match filters P query, compose P query with
  | .ok b, .ok c => c.bound (b.i + 1)
  | _, _ => none

/-- A number is a safe integer: an integer of magnitude below `2 ^ 53`. -/
def IsSafe (n : Int) : Prop :=
  n.natAbs < 9007199254740992

instance (n : Int) : Decidable (IsSafe n) :=
  inferInstanceAs (Decidable (_ < _))

/-- The three cases of the status test. -/
inductive StatusCase where
  | absentOrActive
  | all
  | other
  deriving DecidableEq, Repr

/-- The case a request status falls in. -/
def statusCase (status : Option QVal) : StatusCase :=
  match status with
  | none => .absentOrActive
  | some (.str s) =>
    if s = "" ∨ s = "active" then .absentOrActive
    else if s = "all" then .all
    else .other
  | some _ => .other

/-- Which criteria a request supplies, and the case of its status. -/
structure Shape where
  status : StatusCase
  category_id : Bool
  city : Bool
  price_min : Bool
  price_max : Bool
  q : Bool
  deriving DecidableEq, Repr

/-- The shape of a request: a criterion is supplied when its value is present and not the
empty string. -/
def shape (query : Query) : Shape :=
  { status := statusCase query.status
    category_id := truthy query.category_id
    city := truthy query.city
    price_min := truthy query.price_min
    price_max := truthy query.price_max
    q := truthy query.q }

/-! ### Substring matching -/

/-- The characters LIKE gives a meaning to: the two wildcards and the escape character. -/
def isLikeMeta (c : Char) : Bool :=
  c == '%' || c == '_' || c == '\\'

/-- The lower-cased value has no character that LIKE gives a meaning to. -/
def isPlain (P : Platform) (value : String) : Prop :=
  ∀ ch ∈ (P.toLowerCase value).data, isLikeMeta ch = false

instance (P : Platform) (value : String) : Decidable (isPlain P value) :=
  inferInstanceAs (Decidable (∀ ch ∈ (P.toLowerCase value).data, isLikeMeta ch = false))

/-- The text contains the value as a substring, ignoring letter case: the lower-cased value
(by the runtime) occurs in the lower-cased text (by the store). -/
def containsIgnoringCase (P : Platform) (value text : String) : Prop :=
  (P.toLowerCase value).data <:+: (P.sqlLower text).data

instance (P : Platform) (value text : String) : Decidable (containsIgnoringCase P value text) :=
  inferInstanceAs (Decidable (_ <:+: _))

/-! ### A platform and data for worked examples -/

/-- Lower-casing of the letters A to Z, other characters unchanged. -/
def asciiLower (s : String) : String :=
  ⟨s.data.map Char.toLower⟩

/-- An unsigned decimal numeral, and nothing else, as a natural number. -/
def decimal (s : String) : Option Nat :=
  if s.data.isEmpty then none
  else if s.data.all Char.isDigit then some (digitsValue 10 (s.data.map fun c => c.toNat - 48))
  else none

/-- The decimal text of an integer, `NaN`, `Infinity` and `-Infinity`. -/
def plainNumberText : JsNum → String
  | .nan => "NaN"
  | .posInf => "Infinity"
  | .negInf => "-Infinity"
  | .int n => toString n

/-- A platform for worked examples: letters A to Z are lower-cased, the unsigned decimal
numerals are the texts accepted as numbers, and an array or an object is sent as the
text `?`, which is neither a number nor a status.  The examples bind strings and numbers
only. -/
def asciiPlatform : Platform :=
  { toLowerCase := asciiLower
    sqlLower := asciiLower
    toNumeric := fun s => (decimal s).map fun n => (n : ℚ)
    toInteger := fun s => (decimal s).map fun n => (n : Int)
    valueText := fun _ => "?"
    numberText := plainNumberText }

/-- The first listing of the seed data. -/
def seedPhone : Annonce :=
  { id := 1, title := "iPhone 12 128Go"
    description := some "Très bon état, batterie OK, vendu avec câble."
    price := some 350, city := some "Paris", category_id := some 3, user_id := 1
    status := some "active" }
/-! ### Constraints of the conversations table, and seed data -/

/-- UNIQUE(annonce_id, buyer_id): no two rows share listing and buyer. -/
def Store.conversationsUnique (s : Store) : Prop :=
  s.conversations.Pairwise fun c d => ¬ (c.annonce_id = d.annonce_id ∧ c.buyer_id = d.buyer_id)

/-- The ids in use were issued by the sequence: none exceeds its last value. -/
def Store.sequenceAhead (s : Store) : Prop :=
  ∀ c ∈ s.conversations, c.id ≤ s.conversations_id_seq

instance (s : Store) : Decidable s.conversationsUnique :=
  inferInstanceAs (Decidable (List.Pairwise _ _))

instance (s : Store) : Decidable s.sequenceAhead :=
  inferInstanceAs (Decidable (∀ c ∈ s.conversations, c.id ≤ s.conversations_id_seq))

/-- The store after `n` successive calls of `POST /api/conversations` by the same caller
for the same listing. -/
def repeatPost (s : Store) (caller annonce_id : Nat) : Nat → Store
  | 0 => s
  | n + 1 => (postConversations (repeatPost s caller annonce_id n) caller annonce_id).1

/-- The store as `initDb.js` seeds it: the seller (id 1) and the buyer (id 2), three
listings of the seller, one conversation of the buyer on the first listing and its two
messages. -/
def seedStore : Store :=
  { users := [{ id := 1, username := "vendeur_demo" }, { id := 2, username := "acheteur_demo" }]
    annonces :=
      [seedPhone,
       { id := 2, title := "Vélo de ville"
         description := some "Vélo confortable, révisé récemment."
         price := some 120, city := some "Paris", category_id := some 1, user_id := 1
         status := some "active" },
       { id := 3, title := "Table basse en bois"
         description := some "Style scandinave, quelques traces d'usage."
         price := some 60, city := some "Paris", category_id := some 4, user_id := 1
         status := some "sold" }]
    conversations := [{ id := 1, annonce_id := 1, buyer_id := 2, seller_id := 1 }]
    messages :=
      [{ id := 1, conversation_id := 1, sender_id := 2
         content := "Bonjour, toujours disponible ?", read := false },
       { id := 2, conversation_id := 1, sender_id := 1
         content := "Oui, disponible. Vous souhaitez venir le voir quand ?", read := false }]
    conversations_id_seq := 1
    messages_id_seq := 2 }

/-- What successive calls for (listing, caller) preserve once the conversation `row` is in
place: ids issued by the sequence, the listing's owner, and `row` as the one conversation
of the pair. -/
def Settled (s : Store) (caller annonce_id owner : Nat) (row : Conversation) : Prop :=
  s.sequenceAhead ∧ s.ownerOf annonce_id = some owner ∧
    s.conversationsFor annonce_id caller = [row]




/-! ## Lemmas on the composer -/

theorem paramAt_append (P : Platform) (params more : List Param) (k : Nat)
    (hk : k ≤ params.length) : paramAt P (params ++ more) k = paramAt P params k := by
  unfold paramAt
  by_cases h0 : k = 0
  · simp [h0]
  · have hlt : k - 1 < params.length := by omega
    simp [h0, List.get?_eq_getElem?, List.getElem?_append_left hlt]

theorem paramAt_last (P : Platform) (params : List Param) (v : Param) :
    paramAt P (params ++ [v]) (params.length + 1) = .ok (v.wire P) := by
  unfold paramAt
  simp [List.get?_eq_getElem?]

theorem Cond.eval_append (P : Platform) (params more : List Param) (a : Annonce) (c : Cond)
    (hc : c.placeholder ≤ params.length) :
    c.eval P (params ++ more) a = c.eval P params a := by
  cases c <;> simp only [Cond.placeholder] at hc <;>
    simp only [Cond.eval, paramAt_append P params more _ hc]

theorem whereClause_append_params (P : Platform) (params more : List Param) (a : Annonce)
    (cs : List Cond) (h : ∀ c ∈ cs, c.placeholder ≤ params.length) :
    whereClause P (params ++ more) a cs = whereClause P params a cs := by
  induction cs with
  | nil => rfl
  | cons c cs ih =>
    have h1 := Cond.eval_append P params more a c (h c (List.mem_cons_self _ _))
    have h2 := ih (fun d hd => h d (List.mem_cons_of_mem _ hd))
    simp only [whereClause, h1, h2]

theorem and3_eq_true (v w : Option Bool) :
    and3 v w = some true ↔ v = some true ∧ w = some true := by
  rcases v with _ | _ | _ <;> rcases w with _ | _ | _ <;> simp [and3]

theorem whereClause_cons_true (P : Platform) (params : List Param) (a : Annonce)
    (c : Cond) (cs : List Cond) :
    whereClause P params a (c :: cs) = .ok (some true) ↔
      c.eval P params a = .ok (some true) ∧ whereClause P params a cs = .ok (some true) := by
  simp only [whereClause]
  cases h1 : c.eval P params a <;> cases h2 : whereClause P params a cs <;>
    simp [and3_eq_true]

theorem whereClause_snoc_true (P : Platform) (params : List Param) (a : Annonce)
    (cs : List Cond) (c : Cond) :
    whereClause P params a (cs ++ [c]) = .ok (some true) ↔
      whereClause P params a cs = .ok (some true) ∧ c.eval P params a = .ok (some true) := by
  induction cs with
  | nil =>
    rw [List.nil_append, whereClause_cons_true]
    simp [whereClause]
  | cons d ds ih =>
    rw [List.cons_append, whereClause_cons_true, whereClause_cons_true, ih]
    tauto

theorem paramAt_single (P : Platform) (v : Param) : paramAt P [v] 1 = .ok (v.wire P) := by
  simp [paramAt]

theorem IsTemplate.placeholder {mk : Nat → Cond} (h : IsTemplate mk) (k : Nat) :
    (mk k).placeholder = k := by
  rcases h with rfl | rfl | rfl | rfl | rfl | rfl <;> rfl

theorem IsTemplate.eval_last {mk : Nat → Cond} (h : IsTemplate mk) (P : Platform)
    (params : List Param) (v : Param) (a : Annonce) :
    (mk (params.length + 1)).eval P (params ++ [v]) a = (mk 1).eval P [v] a := by
  rcases h with rfl | rfl | rfl | rfl | rfl | rfl <;>
    simp only [Cond.eval, paramAt_last, paramAt_single]

theorem Builder.push_wf {b : Builder} {mk : Nat → Cond} (hmk : IsTemplate mk) (v : Param)
    (h : b.WF) : (b.push mk v).WF := by
  obtain ⟨hi, hc⟩ := h
  refine ⟨by simp [Builder.push, hi], ?_⟩
  intro c hmem
  simp only [Builder.push, List.mem_append, List.mem_singleton, List.length_append,
    List.length_singleton] at hmem ⊢
  rcases hmem with hmem | rfl
  · exact Nat.le_succ_of_le (hc c hmem)
  · rw [hmk.placeholder, hi]

theorem Builder.push_holds {b : Builder} {mk : Nat → Cond} (hmk : IsTemplate mk) (v : Param)
    (h : b.WF) (P : Platform) (a : Annonce) :
    (b.push mk v).holds P a ↔ b.holds P a ∧ (mk 1).eval P [v] a = .ok (some true) := by
  obtain ⟨hi, hc⟩ := h
  unfold Builder.holds
  simp only [Builder.push]
  rw [whereClause_snoc_true, whereClause_append_params P b.params [v] a b.conds hc, hi,
    hmk.eval_last]

theorem or3_eq_true (v w : Option Bool) :
    or3 v w = some true ↔ v = some true ∨ w = some true := by
  rcases v with _ | _ | _ <;> rcases w with _ | _ | _ <;> simp [or3]

theorem eval_statusActive (P : Platform) (params : List Param) (a : Annonce) :
    Cond.statusActive.eval P params a = .ok (some true) ↔ a.status = some "active" := by
  cases h : a.status <;> simp [Cond.eval, h]

theorem eval_statusEq (P : Platform) (v : QVal) (a : Annonce) :
    (Cond.statusEq 1).eval P [.val v] a = .ok (some true) ↔ a.status = some (P.textOf v) := by
  cases h : a.status <;> simp [Cond.eval, paramAt_single, Param.wire, h]

theorem eval_categoryEq (P : Platform) (v : QVal) (a : Annonce) :
    (Cond.categoryEq 1).eval P [.val v] a = .ok (some true) ↔
      ∃ n, P.toInteger (P.textOf v) = some n ∧ a.category_id = some n := by
  cases hn : P.toInteger (P.textOf v) <;> cases h : a.category_id <;>
    simp [Cond.eval, paramAt_single, Param.wire, hn, h]

theorem eval_cityLike (P : Platform) (s : String) (a : Annonce) :
    (Cond.cityLike 1).eval P [.val (.str s)] a = .ok (some true) ↔
      ∃ v, a.city = some v ∧ likeMatch s.data (P.sqlLower v).data = true := by
  cases h : a.city <;>
    simp [Cond.eval, paramAt_single, Param.wire, Platform.textOf, lowerLike, h]

theorem eval_priceGe (P : Platform) (v : QVal) (a : Annonce) :
    (Cond.priceGe 1).eval P [.val v] a = .ok (some true) ↔
      ∃ x, P.toNumeric (P.textOf v) = some x ∧ ∃ p, a.price = some p ∧ x ≤ p := by
  cases hn : P.toNumeric (P.textOf v) <;> cases h : a.price <;>
    simp [Cond.eval, paramAt_single, Param.wire, hn, h]

theorem eval_priceLe (P : Platform) (v : QVal) (a : Annonce) :
    (Cond.priceLe 1).eval P [.val v] a = .ok (some true) ↔
      ∃ x, P.toNumeric (P.textOf v) = some x ∧ ∃ p, a.price = some p ∧ p ≤ x := by
  cases hn : P.toNumeric (P.textOf v) <;> cases h : a.price <;>
    simp [Cond.eval, paramAt_single, Param.wire, hn, h]

theorem eval_textLike (P : Platform) (s : String) (a : Annonce) :
    (Cond.textLike 1).eval P [.val (.str s)] a = .ok (some true) ↔
      (likeMatch s.data (P.sqlLower a.title).data = true ∨
        ∃ d, a.description = some d ∧ likeMatch s.data (P.sqlLower d).data = true) := by
  cases h : a.description <;>
    simp [Cond.eval, paramAt_single, Param.wire, Platform.textOf, lowerLike, or3_eq_true, h]

/-! ### One step of the composer at a time -/

theorem isTemplate_statusEq : IsTemplate Cond.statusEq := Or.inl rfl

theorem isTemplate_categoryEq : IsTemplate Cond.categoryEq := Or.inr (Or.inl rfl)

theorem isTemplate_cityLike : IsTemplate Cond.cityLike := Or.inr (Or.inr (Or.inl rfl))

theorem isTemplate_priceGe : IsTemplate Cond.priceGe :=
  Or.inr (Or.inr (Or.inr (Or.inl rfl)))

theorem isTemplate_priceLe : IsTemplate Cond.priceLe :=
  Or.inr (Or.inr (Or.inr (Or.inr (Or.inl rfl))))

theorem isTemplate_textLike : IsTemplate Cond.textLike :=
  Or.inr (Or.inr (Or.inr (Or.inr (Or.inr rfl))))

theorem Builder.grows_refl (b : Builder) : b.Grows b :=
  ⟨fun _ h => h, [], (List.append_nil _).symm⟩

theorem Builder.grows_trans {b1 b2 b3 : Builder} (h12 : b1.Grows b2) (h23 : b2.Grows b3) :
    b1.Grows b3 := by
  obtain ⟨hc12, m12, hp12⟩ := h12
  obtain ⟨hc23, m23, hp23⟩ := h23
  exact ⟨fun c h => hc23 c (hc12 c h), m12 ++ m23, by rw [hp23, hp12, List.append_assoc]⟩

theorem Builder.push_grows (b : Builder) (mk : Nat → Cond) (v : Param) :
    b.Grows (b.push mk v) :=
  ⟨fun _ h => List.mem_append_left _ h, [v], rfl⟩

/-- Pushing the literal status test keeps the invariant and adds its condition. -/
theorem pushActive_wf {b : Builder} (h : b.WF) :
    Builder.WF { b with conds := b.conds ++ [Cond.statusActive] } := by
  refine ⟨h.1, ?_⟩
  intro c hmem
  simp only [List.mem_append, List.mem_singleton] at hmem
  rcases hmem with hmem | rfl
  · exact h.2 c hmem
  · exact Nat.zero_le _

theorem pushActive_holds (P : Platform) (a : Annonce) (b : Builder) :
    Builder.holds P { b with conds := b.conds ++ [Cond.statusActive] } a ↔
      b.holds P a ∧ a.status = some "active" := by
  unfold Builder.holds
  simp only []
  rw [whereClause_snoc_true, eval_statusActive]

/-- The status test of the source, by the three named cases. -/
theorem addStatus_eq (status : Option QVal) (b : Builder) :
    addStatus status b =
      match statusCase status with
      | .absentOrActive => { b with conds := b.conds ++ [Cond.statusActive] }
      | .all => b
      | .other =>
        match status with
        | some v => b.push Cond.statusEq (.val v)
        | none => b := by
  rcases status with _ | s | items | fields
  · rfl
  · by_cases h1 : s = ""
    · subst h1
      simp [addStatus, statusCase, QVal.truthy]
    · by_cases h2 : s = "active"
      · subst h2
        simp [addStatus, statusCase, QVal.truthy, QVal.is]
      · by_cases h3 : s = "all"
        · subst h3
          simp [addStatus, statusCase, QVal.truthy, QVal.is]
        · simp [addStatus, statusCase, QVal.truthy, QVal.is, h1, h2, h3]
  · simp [addStatus, statusCase, QVal.truthy, QVal.is]
  · simp [addStatus, statusCase, QVal.truthy, QVal.is]

/-- The policy on a row's status, by the three named cases. -/
theorem statusPolicy_eq (P : Platform) (status : Option QVal) (rowStatus : Option String) :
    statusPolicy P status rowStatus ↔
      match statusCase status with
      | .absentOrActive => rowStatus = some "active"
      | .all => True
      | .other =>
        match status with
        | some v => rowStatus = some (P.textOf v)
        | none => True := by
  rcases status with _ | s | items | fields
  · simp [statusPolicy, statusCase]
  · by_cases h1 : s = ""
    · simp [statusPolicy, statusCase, h1]
    · by_cases h2 : s = "active"
      · simp [statusPolicy, statusCase, h2]
      · by_cases h3 : s = "all"
        · simp [statusPolicy, statusCase, h3]
        · simp [statusPolicy, statusCase, h1, h2, h3, Platform.textOf]
  · simp [statusPolicy, statusCase, Platform.textOf]
  · simp [statusPolicy, statusCase, Platform.textOf]

theorem addStatus_wf (status : Option QVal) {b : Builder} (h : b.WF) :
    (addStatus status b).WF := by
  rw [addStatus_eq]
  cases statusCase status with
  | absentOrActive => exact pushActive_wf h
  | all => exact h
  | other =>
    cases status with
    | none => exact h
    | some v => exact Builder.push_wf isTemplate_statusEq _ h

theorem addStatus_grows (status : Option QVal) (b : Builder) :
    b.Grows (addStatus status b) := by
  rw [addStatus_eq]
  cases statusCase status with
  | absentOrActive => exact ⟨fun _ h => List.mem_append_left _ h, [], (List.append_nil _).symm⟩
  | all => exact Builder.grows_refl _
  | other =>
    cases status with
    | none => exact Builder.grows_refl _
    | some v => exact Builder.push_grows _ _ _

theorem addStatus_holds (P : Platform) (a : Annonce) (status : Option QVal) {b : Builder}
    (h : b.WF) :
    (addStatus status b).holds P a ↔ b.holds P a ∧ statusPolicy P status a.status := by
  rw [addStatus_eq, statusPolicy_eq]
  cases statusCase status with
  | absentOrActive => exact pushActive_holds P a b
  | all => simp
  | other =>
    cases status with
    | none => simp
    | some v =>
      simp only []
      rw [Builder.push_holds isTemplate_statusEq _ h, eval_statusEq]

/-- A step that pushes the value as it came when it is truthy. -/
theorem pushIfTruthy_holds {mk : Nat → Cond} (hmk : IsTemplate mk) (P : Platform)
    (a : Annonce) (value : Option QVal) {b : Builder} (h : b.WF) (crit : QVal → Prop)
    (hcrit : ∀ v, (mk 1).eval P [.val v] a = .ok (some true) ↔ crit v) :
    Builder.holds P (pushIfTruthy mk value b) a ↔
      b.holds P a ∧ ∀ v, value = some v → v.truthy = true → crit v := by
  unfold pushIfTruthy
  cases value with
  | none => simp
  | some v =>
    by_cases ht : v.truthy = true
    · simp only [ht, if_true]
      rw [Builder.push_holds hmk _ h, hcrit]
      simp [ht]
    · simp [ht]

theorem pushIfTruthy_wf {mk : Nat → Cond} (hmk : IsTemplate mk) (value : Option QVal)
    {b : Builder} (h : b.WF) :
    Builder.WF (pushIfTruthy mk value b) := by
  unfold pushIfTruthy
  cases value with
  | none => exact h
  | some v =>
    by_cases ht : v.truthy = true
    · simp only [ht, if_true]
      exact Builder.push_wf hmk _ h
    · simpa [ht] using h

theorem pushIfTruthy_grows (mk : Nat → Cond) (value : Option QVal) (b : Builder) :
    b.Grows (pushIfTruthy mk value b) := by
  unfold pushIfTruthy
  cases value with
  | none => exact Builder.grows_refl _
  | some v =>
    by_cases ht : v.truthy = true
    · simp only [ht, if_true]
      exact Builder.push_grows _ _ _
    · simp only [ht]
      exact Builder.grows_refl _

theorem addCategory_wf (category_id : Option QVal) {b : Builder} (h : b.WF) :
    (addCategory category_id b).WF :=
  pushIfTruthy_wf isTemplate_categoryEq category_id h

theorem addCategory_grows (v : Option QVal) (b : Builder) : b.Grows (addCategory v b) :=
  pushIfTruthy_grows _ v b

theorem addCategory_holds (P : Platform) (a : Annonce) (category_id : Option QVal)
    {b : Builder} (h : b.WF) :
    (addCategory category_id b).holds P a ↔
      b.holds P a ∧ categoryCriterion P category_id a :=
  pushIfTruthy_holds isTemplate_categoryEq P a category_id h _
    (fun v => eval_categoryEq P v a)

theorem addPriceMin_wf (price_min : Option QVal) {b : Builder} (h : b.WF) :
    (addPriceMin price_min b).WF :=
  pushIfTruthy_wf isTemplate_priceGe price_min h

theorem addPriceMin_grows (v : Option QVal) (b : Builder) : b.Grows (addPriceMin v b) :=
  pushIfTruthy_grows _ v b

theorem addPriceMin_holds (P : Platform) (a : Annonce) (price_min : Option QVal)
    {b : Builder} (h : b.WF) :
    (addPriceMin price_min b).holds P a ↔
      b.holds P a ∧ priceMinCriterion P price_min a :=
  pushIfTruthy_holds isTemplate_priceGe P a price_min h _ (fun v => eval_priceGe P v a)

theorem addPriceMax_wf (price_max : Option QVal) {b : Builder} (h : b.WF) :
    (addPriceMax price_max b).WF :=
  pushIfTruthy_wf isTemplate_priceLe price_max h

theorem addPriceMax_grows (v : Option QVal) (b : Builder) : b.Grows (addPriceMax v b) :=
  pushIfTruthy_grows _ v b

theorem addPriceMax_holds (P : Platform) (a : Annonce) (price_max : Option QVal)
    {b : Builder} (h : b.WF) :
    (addPriceMax price_max b).holds P a ↔
      b.holds P a ∧ priceMaxCriterion P price_max a :=
  pushIfTruthy_holds isTemplate_priceLe P a price_max h _ (fun v => eval_priceLe P v a)

/-! ### The two steps that may throw -/

theorem addCity_ok (P : Platform) (city : Option QVal) (b : Builder)
    (h : stringOrAbsent city = true) : addCity P city b = .ok (cityStep P city b) := by
  rcases city with _ | s | items | fields
  · rfl
  · simp only [addCity, cityStep]
    split <;> rfl
  · simp [stringOrAbsent] at h
  · simp [stringOrAbsent] at h

theorem addCity_error (P : Platform) (city : Option QVal) (b : Builder)
    (h : stringOrAbsent city = false) :
    addCity P city b = .error (.typeError "city.toLowerCase is not a function") := by
  rcases city with _ | s | items | fields
  · simp [stringOrAbsent] at h
  · simp [stringOrAbsent] at h
  · rfl
  · rfl

theorem addText_ok (P : Platform) (q : Option QVal) (b : Builder)
    (h : stringOrAbsent q = true) : addText P q b = .ok (textStep P q b) := by
  rcases q with _ | s | items | fields
  · rfl
  · simp only [addText, textStep]
    split <;> rfl
  · simp [stringOrAbsent] at h
  · simp [stringOrAbsent] at h

theorem addText_error (P : Platform) (q : Option QVal) (b : Builder)
    (h : stringOrAbsent q = false) :
    addText P q b = .error (.typeError "q.toLowerCase is not a function") := by
  rcases q with _ | s | items | fields
  · simp [stringOrAbsent] at h
  · simp [stringOrAbsent] at h
  · rfl
  · rfl

/-- A truthy value that is not a string fails the criterion of a text filter. -/
theorem not_stringOrAbsent_iff (value : Option QVal) :
    stringOrAbsent value = false ↔
      ∃ v, value = some v ∧ v.truthy = true ∧ ∀ s, v ≠ .str s := by
  rcases value with _ | s | items | fields
  · simp [stringOrAbsent]
  · simp [stringOrAbsent]
  · simp [stringOrAbsent, QVal.truthy]
  · simp [stringOrAbsent, QVal.truthy]

theorem cityStep_wf (P : Platform) (city : Option QVal) {b : Builder} (h : b.WF) :
    (cityStep P city b).WF := by
  rcases city with _ | s | items | fields
  · exact h
  · simp only [cityStep]
    split
    · exact Builder.push_wf isTemplate_cityLike _ h
    · exact h
  · exact h
  · exact h

theorem cityStep_grows (P : Platform) (city : Option QVal) (b : Builder) :
    b.Grows (cityStep P city b) := by
  rcases city with _ | s | items | fields
  · exact Builder.grows_refl _
  · simp only [cityStep]
    split
    · exact Builder.push_grows _ _ _
    · exact Builder.grows_refl _
  · exact Builder.grows_refl _
  · exact Builder.grows_refl _

theorem cityStep_holds (P : Platform) (a : Annonce) (city : Option QVal) {b : Builder}
    (h : b.WF) (hs : stringOrAbsent city = true) :
    (cityStep P city b).holds P a ↔ b.holds P a ∧ cityCriterion P city a := by
  rcases city with _ | s | items | fields
  · simp [cityStep, cityCriterion]
  · by_cases h0 : s = ""
    · simp [cityStep, cityCriterion, QVal.truthy, h0]
    · simp only [cityStep, bne_iff_ne, ne_eq, h0, not_false_eq_true, if_true]
      rw [Builder.push_holds isTemplate_cityLike _ h, eval_cityLike]
      simp [cityCriterion, QVal.truthy, h0]
  · simp [stringOrAbsent] at hs
  · simp [stringOrAbsent] at hs

theorem textStep_wf (P : Platform) (q : Option QVal) {b : Builder} (h : b.WF) :
    (textStep P q b).WF := by
  rcases q with _ | s | items | fields
  · exact h
  · simp only [textStep]
    split
    · exact Builder.push_wf isTemplate_textLike _ h
    · exact h
  · exact h
  · exact h

theorem textStep_grows (P : Platform) (q : Option QVal) (b : Builder) :
    b.Grows (textStep P q b) := by
  rcases q with _ | s | items | fields
  · exact Builder.grows_refl _
  · simp only [textStep]
    split
    · exact Builder.push_grows _ _ _
    · exact Builder.grows_refl _
  · exact Builder.grows_refl _
  · exact Builder.grows_refl _

theorem textStep_holds (P : Platform) (a : Annonce) (q : Option QVal) {b : Builder}
    (h : b.WF) (hs : stringOrAbsent q = true) :
    (textStep P q b).holds P a ↔ b.holds P a ∧ textCriterion P q a := by
  rcases q with _ | s | items | fields
  · simp [textStep, textCriterion]
  · by_cases h0 : s = ""
    · simp [textStep, textCriterion, QVal.truthy, h0]
    · simp only [textStep, bne_iff_ne, ne_eq, h0, not_false_eq_true, if_true]
      rw [Builder.push_holds isTemplate_textLike _ h, eval_textLike]
      simp [textCriterion, QVal.truthy, h0]
  · simp [stringOrAbsent] at hs
  · simp [stringOrAbsent] at hs

theorem initial_wf : Builder.WF { conds := [], params := [], i := 1 } :=
  ⟨rfl, fun _ h => by simp at h⟩

theorem locals_wf (P : Platform) (query : Query) : (locals P query).WF :=
  textStep_wf P _ <| addPriceMax_wf _ <| addPriceMin_wf _ <| cityStep_wf P _ <|
    addCategory_wf _ <| addStatus_wf _ initial_wf

theorem limitNumber_of_hasText (query : Query) (h : hasText query.limit = true) :
    ∃ n, limitNumber query = .ok n := by
  unfold limitNumber
  cases hv : query.limit with
  | none => exact ⟨_, rfl⟩
  | some v =>
    rw [hv] at h
    simp only [hasText] at h
    simp only [parseIntOf]
    cases ht : v.toJsString with
    | ok text => exact ⟨_, rfl⟩
    | error e => simp [ht] at h

theorem pageNumber_of_hasText (query : Query) (h : hasText query.page = true) :
    ∃ n, pageNumber query = .ok n := by
  unfold pageNumber
  cases hv : query.page with
  | none => exact ⟨_, rfl⟩
  | some v =>
    rw [hv] at h
    simp only [hasText] at h
    simp only [parseIntOf]
    cases ht : v.toJsString with
    | ok text => exact ⟨_, rfl⟩
    | error e => simp [ht] at h

theorem limitNumber_error_of_not_hasText (query : Query) (h : hasText query.limit = false) :
    ∃ e, limitNumber query = .error e := by
  unfold limitNumber
  cases hv : query.limit with
  | none => simp [hv, hasText] at h
  | some v =>
    rw [hv] at h
    simp only [hasText] at h
    simp only [parseIntOf]
    cases ht : v.toJsString with
    | ok text => simp [ht] at h
    | error e => exact ⟨e, rfl⟩

theorem pageNumber_error_of_not_hasText (query : Query) (h : hasText query.page = false) :
    ∃ e, pageNumber query = .error e := by
  unfold pageNumber
  cases hv : query.page with
  | none => simp [hv, hasText] at h
  | some v =>
    rw [hv] at h
    simp only [hasText] at h
    simp only [parseIntOf]
    cases ht : v.toJsString with
    | ok text => simp [ht] at h
    | error e => exact ⟨e, rfl⟩

/-- The handler reaches line 115 exactly when neither `toLowerCase` call throws, and then
with the locals of the straight path. -/
theorem filters_of_strings (P : Platform) (query : Query)
    (hc : stringOrAbsent query.city = true) (hq : stringOrAbsent query.q = true) :
    filters P query = .ok (locals P query) := by
  simp only [filters, addCity_ok P _ _ hc, addText_ok P _ _ hq, locals]

theorem filters_of_not_strings (P : Platform) (query : Query)
    (h : stringOrAbsent query.city = false ∨ stringOrAbsent query.q = false) :
    ∃ e, filters P query = .error e := by
  by_cases hc : stringOrAbsent query.city = true
  · have hq : stringOrAbsent query.q = false := by
      rcases h with h | h
      · rw [h] at hc; exact absurd hc (by simp)
      · exact h
    exact ⟨.typeError "q.toLowerCase is not a function",
      by simp only [filters, addCity_ok P _ _ hc, addText_error P _ _ hq]⟩
  · simp only [Bool.not_eq_true] at hc
    exact ⟨.typeError "city.toLowerCase is not a function",
      by simp only [filters, addCity_error P _ _ hc]⟩

theorem composes_iff (query : Query) :
    query.composes = true ↔
      stringOrAbsent query.city = true ∧ stringOrAbsent query.q = true ∧
        hasText query.page = true ∧ hasText query.limit = true := by
  simp only [Query.composes, Bool.and_eq_true]
  tauto

theorem filters_of_composes (P : Platform) (query : Query) (h : query.composes = true) :
    filters P query = .ok (locals P query) :=
  filters_of_strings P query ((composes_iff query).1 h).1 ((composes_iff query).1 h).2.1

/-- When nothing throws, the statement is built from the locals of the straight path and
the two parsed numbers. -/
theorem compose_of_composes (P : Platform) (query : Query) (h : query.composes = true) :
    ∃ page limit, pageNumber query = .ok page ∧ limitNumber query = .ok limit ∧
      compose P query = .ok (statement (locals P query) limit (offsetOf page limit)) := by
  obtain ⟨hc, hq, hp, hl⟩ := (composes_iff query).1 h
  obtain ⟨pg, hpg⟩ := pageNumber_of_hasText query hp
  obtain ⟨lm, hlm⟩ := limitNumber_of_hasText query hl
  exact ⟨pg, lm, hpg, hlm,
    by simp only [compose, filters_of_strings P query hc hq, offsetNumber, hpg, hlm]⟩

theorem compose_of_not_composes (P : Platform) (query : Query)
    (h : query.composes = false) : ∃ e, compose P query = .error e := by
  by_cases hs : stringOrAbsent query.city = true ∧ stringOrAbsent query.q = true
  · have hf := filters_of_strings P query hs.1 hs.2
    by_cases hp : hasText query.page = true
    · have hl : hasText query.limit = false := by
        cases hh : hasText query.limit with
        | false => rfl
        | true =>
          have : query.composes = true := (composes_iff query).2 ⟨hs.1, hs.2, hp, hh⟩
          rw [this] at h
          exact absurd h (by simp)
      obtain ⟨pg, hpg⟩ := pageNumber_of_hasText query hp
      obtain ⟨e, he⟩ := limitNumber_error_of_not_hasText query hl
      exact ⟨e, by simp only [compose, hf, offsetNumber, hpg, he]⟩
    · simp only [Bool.not_eq_true] at hp
      obtain ⟨e, he⟩ := pageNumber_error_of_not_hasText query hp
      exact ⟨e, by simp only [compose, hf, offsetNumber, he]⟩
  · have hs1 : stringOrAbsent query.city = false ∨ stringOrAbsent query.q = false := by
      by_cases hc : stringOrAbsent query.city = true
      · right
        simpa using fun hq => hs ⟨hc, hq⟩
      · left
        simpa using hc
    obtain ⟨e, he⟩ := filters_of_not_strings P query hs1
    exact ⟨e, by simp only [compose, he]⟩

theorem selects_eq_true_iff (P : Platform) (c : Composed) (a : Annonce) :
    selects P c a = .ok true ↔ whereClause P c.params a c.conds = .ok (some true) := by
  unfold selects
  cases h : whereClause P c.params a c.conds <;> simp

/-- The rows the handler's statement ranges over are those that meet each criterion, when
neither `parseInt` call throws; a request on which the handler throws selects none. -/
theorem selected_iff (P : Platform) (query : Query) (a : Annonce) :
    selected P query a = .ok true ↔
      statusPolicy P query.status a.status ∧ categoryCriterion P query.category_id a ∧
        cityCriterion P query.city a ∧ priceMinCriterion P query.price_min a ∧
        priceMaxCriterion P query.price_max a ∧ textCriterion P query.q a ∧
        hasText query.page = true ∧ hasText query.limit = true := by
  by_cases hcomp : query.composes = true
  · obtain ⟨pg, lm, -, -, hcmp⟩ := compose_of_composes P query hcomp
    have hsel : selected P query a = .ok true ↔
        selects P (statement (locals P query) lm (offsetOf pg lm)) a = .ok true := by
      simp only [selected, hcmp]
      cases selects P (statement (locals P query) lm (offsetOf pg lm)) a <;> simp
    rw [hsel, selects_eq_true_iff]
    simp only [statement]
    rw [whereClause_append_params P _ _ a _ (locals_wf P query).2]
    change (locals P query).holds P a ↔ _
    obtain ⟨hc, hq, hp, hl⟩ := (composes_iff query).1 hcomp
    unfold locals
    have h0 := initial_wf
    have h1 := addStatus_wf query.status h0
    have h2 := addCategory_wf query.category_id h1
    have h3 := cityStep_wf P query.city h2
    have h4 := addPriceMin_wf query.price_min h3
    have h5 := addPriceMax_wf query.price_max h4
    rw [textStep_holds P a _ h5 hq, addPriceMax_holds P a _ h4,
      addPriceMin_holds P a _ h3, cityStep_holds P a _ h2 hc,
      addCategory_holds P a _ h1, addStatus_holds P a _ h0]
    have hinit : Builder.holds P { conds := [], params := [], i := 1 } a := rfl
    constructor
    · rintro ⟨⟨⟨⟨⟨⟨_, hs⟩, hc⟩, hv⟩, hmin⟩, hmax⟩, ht⟩
      exact ⟨hs, hc, hv, hmin, hmax, ht, hp, hl⟩
    · rintro ⟨hs, hc, hv, hmin, hmax, ht, -, -⟩
      exact ⟨⟨⟨⟨⟨⟨hinit, hs⟩, hc⟩, hv⟩, hmin⟩, hmax⟩, ht⟩
  · obtain ⟨e, he⟩ := compose_of_not_composes P query (by simpa using hcomp)
    have hsel : ¬ selected P query a = .ok true := by
      simp [selected, he]
    constructor
    · exact fun h => absurd h hsel
    · rintro ⟨-, -, hv, -, -, ht, hp, hl⟩
      exfalso
      apply hcomp
      rw [composes_iff]
      refine ⟨?_, ?_, hp, hl⟩
      · cases hc : stringOrAbsent query.city with
        | true => rfl
        | false =>
          obtain ⟨v, hv1, hv2, hv3⟩ := (not_stringOrAbsent_iff _).1 hc
          obtain ⟨s, hs, -⟩ := hv v hv1 hv2
          exact absurd hs (hv3 s)
      · cases hc : stringOrAbsent query.q with
        | true => rfl
        | false =>
          obtain ⟨v, hv1, hv2, hv3⟩ := (not_stringOrAbsent_iff _).1 hc
          obtain ⟨s, hs, -⟩ := ht v hv1 hv2
          exact absurd hs (hv3 s)

/-! ## The filter composer: status and price interval -/

/-- C1: the status policy of GET /api/annonces.  A row is selected by the composed query
exactly when its status meets the policy (absent, empty or "active": the row is active;
"all": no condition; any other value s: the row's status is s) and the row is selected by
the same request with status "all", that is, by the other criteria.  With status "all" the
row's own status has no influence on whether it is selected. -/
theorem status_visibility_policy (P : Platform) (query : Query) (a : Annonce) :
    (selected P query a = .ok true ↔
      statusPolicy P query.status a.status ∧
        selected P { query with status := some (.str "all") } a = .ok true) ∧
    (∀ st : Option String,
      selected P { query with status := some (.str "all") } { a with status := st }
          = .ok true ↔
        selected P { query with status := some (.str "all") } a = .ok true) := by
  refine ⟨?_, fun st => ?_⟩
  · rw [selected_iff, selected_iff]
    simp [statusPolicy]
  · rw [selected_iff, selected_iff]
    simp [statusPolicy, categoryCriterion, cityCriterion, priceMinCriterion,
      priceMaxCriterion, textCriterion]

/-- C6: the price interval of GET /api/annonces.  For a listing with price p that the
request without its price bounds selects, the composed query selects the listing exactly
when a supplied price_min is a number lo with lo ≤ p and a supplied price_max is a number hi
with p ≤ hi; an absent (or empty) bound puts no condition on its side. -/
theorem price_interval_inclusive (P : Platform) (query : Query) (a : Annonce) (p : ℚ)
    (hp : a.price = some p)
    (hother : selected P { query with price_min := none, price_max := none } a
      = .ok true) :
    selected P query a = .ok true ↔
      (∀ v, query.price_min = some v → v.truthy = true →
        ∃ lo, P.toNumeric (P.textOf v) = some lo ∧ lo ≤ p) ∧
      (∀ v, query.price_max = some v → v.truthy = true →
        ∃ hi, P.toNumeric (P.textOf v) = some hi ∧ p ≤ hi) := by
  rw [selected_iff] at hother ⊢
  obtain ⟨hs, hc, hv, -, -, ht⟩ := hother
  simp only [priceMinCriterion, priceMaxCriterion, hp, Option.some.injEq, exists_eq_left']
  constructor
  · rintro ⟨-, -, -, hmin, hmax, -⟩
    exact ⟨hmin, hmax⟩
  · rintro ⟨hmin, hmax⟩
    exact ⟨hs, hc, hv, hmin, hmax, ht⟩

/-- Witness of C6 on the seed listing (price 350) and the bounds 300 and 400. -/
theorem price_interval_inclusive_witness :
    selected asciiPlatform
        { price_min := some (.str "300"), price_max := some (.str "400") } seedPhone
        = .ok true ↔
      (∀ v, some (QVal.str "300") = some v → v.truthy = true →
        ∃ lo, asciiPlatform.toNumeric (asciiPlatform.textOf v) = some lo ∧ lo ≤ (350 : ℚ)) ∧
      (∀ v, some (QVal.str "400") = some v → v.truthy = true →
        ∃ hi, asciiPlatform.toNumeric (asciiPlatform.textOf v) = some hi ∧ (350 : ℚ) ≤ hi) :=
  price_interval_inclusive asciiPlatform
    { price_min := some (.str "300"), price_max := some (.str "400") }
    seedPhone 350 rfl (by decide)

/-! ## The filter composer: pagination -/

theorem roundNat_safe (n : Nat) (h : n < 9007199254740992) : roundNat n = some n := by
  have hloop : shiftLoop n n false false 0 = (n, false, false, 0) := by
    cases n with
    | zero => rfl
    | succ m => simp [shiftLoop, h]
  simp [roundNat, hloop, doubleTimes]

/-- A safe integer is its own Number value. -/
theorem JsNum.ofInt_safe (n : Int) (h : IsSafe n) : JsNum.ofInt n = .int n := by
  unfold IsSafe at h
  simp only [JsNum.ofInt, roundNat_safe _ h]
  by_cases hn : n < 0
  · simp only [hn, if_true, JsNum.int.injEq]
    omega
  · simp only [hn, if_false, JsNum.int.injEq]
    omega

theorem get?_append_two_fst {α : Type} (l : List α) (x y : α) :
    (l ++ [x, y]).get? l.length = some x := by
  induction l with
  | nil => rfl
  | cons _ _ ih => simpa using ih

theorem get?_append_two_snd {α : Type} (l : List α) (x y : α) :
    (l ++ [x, y]).get? (l.length + 1) = some y := by
  induction l with
  | nil => rfl
  | cons _ _ ih => simpa using ih

theorem limitParam_eq (P : Platform) (query : Query) (h : query.composes = true)
    (limit : JsNum) (hl : limitNumber query = .ok limit) :
    limitParam P query = some (.num limit) := by
  obtain ⟨pg, lm, -, hlm, hcmp⟩ := compose_of_composes P query h
  rw [hl] at hlm
  simp only [Except.ok.injEq] at hlm
  subst hlm
  have hi := (locals_wf P query).1
  simp only [limitParam, filters_of_composes P query h, hcmp, Composed.bound, statement, hi,
    Nat.add_sub_cancel]
  rw [if_neg (Nat.succ_ne_zero _)]
  exact get?_append_two_fst _ _ _

theorem offsetParam_eq (P : Platform) (query : Query) (h : query.composes = true)
    (page limit : JsNum) (hp : pageNumber query = .ok page)
    (hl : limitNumber query = .ok limit) :
    offsetParam P query = some (.num (offsetOf page limit)) := by
  obtain ⟨pg, lm, hpg, hlm, hcmp⟩ := compose_of_composes P query h
  rw [hl] at hlm
  rw [hp] at hpg
  simp only [Except.ok.injEq] at hlm hpg
  subst hlm hpg
  have hi := (locals_wf P query).1
  simp only [offsetParam, filters_of_composes P query h, hcmp, Composed.bound, statement, hi,
    Nat.add_sub_cancel]
  rw [if_neg (Nat.succ_ne_zero _)]
  exact get?_append_two_snd _ _ _

/-- C8, as stated, fails.  For page 94906268 and page size 94906267 the product
(max(1, page) - 1) * size is 9007199515875289, which is not a double: the parameter bound to
OFFSET is 9007199515875288.  And for page 0 with a page size of 400 digits, which `parseInt`
reads as Infinity, the parameter is NaN, not 0. -/
theorem offset_rounding_counterexample :
    offsetParam asciiPlatform
        { page := some (.str "94906268"), limit := some (.str "94906267") }
        = some (.num (.int 9007199515875288)) ∧
      ((max 1 94906268 - 1) * 94906267 : Int) = 9007199515875289 ∧
      offsetParam asciiPlatform
        { page := some (.str "0"), limit := some (.str (String.mk (List.replicate 400 '9'))) }
        = some (.num .nan) := by
  refine ⟨?_, by decide, ?_⟩
  · rw [offsetParam_eq _ _ (by decide) (.int 94906268) (.int 94906267) (by decide)
      (by decide)]
    have h : offsetOf (.int 94906268) (.int 94906267) = .int 9007199515875288 := by decide
    rw [h]
  · rw [offsetParam_eq _ _ (by decide) (.int 0) .posInf (by decide)
      (by set_option maxRecDepth 100000 in decide)]
    rfl

/-- C8, amended: the OFFSET parameter of GET /api/annonces within the safe integers.  When
a statement is composed, the page parses to the safe integer p, the page size parses to
the integer l (defaults 1 and 20 when absent) and the product (max 1 p - 1) * l is a safe
integer, the parameter bound to the OFFSET placeholder is that product; it is 0 for every p
below 1, and 0 when no page is given. -/
theorem offset_is_clamped_page_times_size (P : Platform) (query : Query) (p l : Int)
    (hcomp : query.composes = true)
    (hp : pageNumber query = .ok (.int p)) (hl : limitNumber query = .ok (.int l))
    (hsp : IsSafe p) (hprod : IsSafe ((max 1 p - 1) * l)) :
    offsetParam P query = some (.num (.int ((max 1 p - 1) * l))) ∧
      (p < 1 → offsetParam P query = some (.num (.int 0))) ∧
      offsetParam P { query with page := none } = some (.num (.int 0)) := by
  have hpred : IsSafe (max 1 p - 1) := by
    unfold IsSafe at hsp ⊢
    omega
  have h : offsetParam P query = some (.num (.int ((max 1 p - 1) * l))) := by
    rw [offsetParam_eq P query hcomp _ _ hp hl]
    simp only [offsetOf, JsNum.max1, JsNum.pred, JsNum.ofInt_safe _ hpred, JsNum.mul,
      JsNum.ofInt_safe _ hprod]
  refine ⟨h, fun hlt => ?_, ?_⟩
  · rw [h, max_eq_left (by omega)]
    simp
  · have hcomp1 : Query.composes { query with page := none } = true := by
      obtain ⟨hc, hq, -, hlim⟩ := (composes_iff query).1 hcomp
      exact (composes_iff _).2 ⟨hc, hq, rfl, hlim⟩
    have hl1 : limitNumber { query with page := none } = .ok (.int l) := hl
    rw [offsetParam_eq P _ hcomp1 (.int 1) (.int l) rfl hl1]
    have h0 : JsNum.ofInt 0 = .int 0 := JsNum.ofInt_safe 0 (by decide)
    simp [offsetOf, JsNum.max1, JsNum.pred, JsNum.mul, h0]

/-- Witness of the amended C8: page "3" with page size "10" gives offset 20, and page "0"
with page size "10" is clamped to offset 0. -/
theorem offset_is_clamped_page_times_size_witness :
    (offsetParam asciiPlatform { page := some (.str "3"), limit := some (.str "10") }
        = some (.num (.int ((max 1 3 - 1) * 10))) ∧
      offsetParam asciiPlatform { page := none, limit := some (.str "10") }
        = some (.num (.int 0))) ∧
    (offsetParam asciiPlatform { page := some (.str "0"), limit := some (.str "10") }
        = some (.num (.int ((max 1 0 - 1) * 10))) ∧
      offsetParam asciiPlatform { page := some (.str "0"), limit := some (.str "10") }
        = some (.num (.int 0))) :=
  ⟨⟨(offset_is_clamped_page_times_size asciiPlatform
        { page := some (.str "3"), limit := some (.str "10") } 3 10
        (by decide) (by decide) (by decide) (by decide) (by decide)).1,
    (offset_is_clamped_page_times_size asciiPlatform
        { page := some (.str "3"), limit := some (.str "10") } 3 10
        (by decide) (by decide) (by decide) (by decide) (by decide)).2.2⟩,
   ⟨(offset_is_clamped_page_times_size asciiPlatform
        { page := some (.str "0"), limit := some (.str "10") } 0 10
        (by decide) (by decide) (by decide) (by decide) (by decide)).1,
    (offset_is_clamped_page_times_size asciiPlatform
        { page := some (.str "0"), limit := some (.str "10") } 0 10
        (by decide) (by decide) (by decide) (by decide) (by decide)).2.1 (by decide)⟩⟩

/-- C9, as stated, fails: a page size of "0" is bound to LIMIT as 0 and a page size of "-5"
as -5; the composer neither rejects the request nor substitutes a default. -/
theorem limit_not_clamped_counterexample :
    limitParam asciiPlatform { limit := some (.str "0") } = some (.num (.int 0)) ∧
      limitParam asciiPlatform { limit := some (.str "-5") } = some (.num (.int (-5))) ∧
      ¬ (∀ query : Query, ∃ n : Int, 0 < n ∧
          limitParam asciiPlatform query = some (.num (.int n))) := by
  have h0 : limitParam asciiPlatform { limit := some (.str "0") } = some (.num (.int 0)) :=
    limitParam_eq _ _ (by decide) _ (by decide)
  have h5 : limitParam asciiPlatform { limit := some (.str "-5") }
      = some (.num (.int (-5))) :=
    limitParam_eq _ _ (by decide) _ (by decide)
  refine ⟨h0, h5, ?_⟩
  intro h
  obtain ⟨n, hn, hq⟩ := h { limit := some (.str "0") }
  rw [h0] at hq
  simp only [Option.some.injEq, Param.num.injEq, JsNum.int.injEq] at hq
  omega

/-- C9, amended: for a request on which neither `toLowerCase` nor `parseInt` throws (city
and q, when supplied, are strings; page and limit convert to strings), the handler composes
a statement whatever the page size, and the parameter bound to the LIMIT placeholder is the
page size as `parseInt` reads it, unchanged: 20 when no page size is given, the parsed
number for a string, and a parsed number that is zero or negative as it is. -/
theorem limit_is_parsed_page_size (P : Platform) (query : Query)
    (hcomp : query.composes = true) :
    (∃ c, compose P query = .ok c) ∧
      (∃ n, limitNumber query = .ok n ∧ limitParam P query = some (.num n)) ∧
      (query.limit = none → limitParam P query = some (.num (.int 20))) ∧
      (∀ s, query.limit = some (.str s) → limitParam P query = some (.num (parseInt s))) ∧
      ∀ n : Int, n ≤ 0 → limitNumber query = .ok (.int n) →
        limitParam P query = some (.num (.int n)) := by
  obtain ⟨pg, lm, -, hlm, hcmp⟩ := compose_of_composes P query hcomp
  refine ⟨⟨_, hcmp⟩, ⟨lm, hlm, limitParam_eq P query hcomp lm hlm⟩, ?_, ?_, ?_⟩
  · intro hnone
    exact limitParam_eq P query hcomp _ (by simp [limitNumber, hnone])
  · intro s hs
    exact limitParam_eq P query hcomp _
      (by simp [limitNumber, hs, parseIntOf, QVal.toJsString])
  · intro n _ hn
    exact limitParam_eq P query hcomp _ hn

/-- Witness of the amended C9: a request for the city "Paris" with page size "-5". -/
theorem limit_is_parsed_page_size_witness :
    (∃ c, compose asciiPlatform { city := some (.str "Paris"), limit := some (.str "-5") }
        = .ok c) ∧
      limitParam asciiPlatform { city := some (.str "Paris"), limit := some (.str "-5") }
        = some (.num (parseInt "-5")) ∧
      limitParam asciiPlatform { city := some (.str "Paris"), limit := some (.str "-5") }
        = some (.num (.int (-5))) :=
  ⟨(limit_is_parsed_page_size asciiPlatform
      { city := some (.str "Paris"), limit := some (.str "-5") } (by decide)).1,
   (limit_is_parsed_page_size asciiPlatform
      { city := some (.str "Paris"), limit := some (.str "-5") } (by decide)).2.2.2.1 "-5" rfl,
   (limit_is_parsed_page_size asciiPlatform
      { city := some (.str "Paris"), limit := some (.str "-5") } (by decide)).2.2.2.2 (-5)
      (by decide) (by decide)⟩
/-! ## The filter composer: text filters -/

theorem anySuffix_iff (f : List Char → Bool) (t : List Char) :
    anySuffix f t = true ↔ ∃ s, s <:+ t ∧ f s = true := by
  induction t with
  | nil => simp [anySuffix]
  | cons c t ih =>
    simp only [anySuffix, Bool.or_eq_true, ih, List.suffix_cons_iff]
    constructor
    · rintro (h | ⟨s, hs, hf⟩)
      · exact ⟨c :: t, Or.inl rfl, h⟩
      · exact ⟨s, Or.inr hs, hf⟩
    · rintro ⟨s, rfl | hs, hf⟩
      · exact Or.inl hf
      · exact Or.inr ⟨s, hs, hf⟩

theorem likeMatch_cons_plain (p0 : Char) (p t : List Char) (h1 : ¬p0 = '%')
    (h2 : ¬p0 = '_') (h3 : ¬p0 = '\\') :
    likeMatch (p0 :: p) t =
      (match t with
      | [] => false
      | c1 :: t1 => p0 == c1 && likeMatch p t1) := by
  rw [likeMatch.eq_def]
  simp only [h1, h2, h3, if_false]

theorem likeMatch_cons_percent (p t : List Char) :
    likeMatch ('%' :: p) t = anySuffix (likeMatch p) t := by
  rw [likeMatch.eq_def]
  simp

theorem likeMatch_percent (t : List Char) : likeMatch ['%'] t = true := by
  rw [likeMatch_cons_percent, anySuffix_iff]
  exact ⟨[], List.nil_suffix, rfl⟩

theorem likeMatch_plain_append (p : List Char) (hp : ∀ c ∈ p, isLikeMeta c = false)
    (rest t : List Char) :
    likeMatch (p ++ rest) t = true ↔ ∃ t1, t = p ++ t1 ∧ likeMatch rest t1 = true := by
  induction p generalizing t with
  | nil => simp
  | cons p0 p ih =>
    have h0 := hp p0 (List.mem_cons_self _ _)
    have hp1 : ∀ c ∈ p, isLikeMeta c = false := fun c hc => hp c (List.mem_cons_of_mem _ hc)
    simp only [isLikeMeta, Bool.or_eq_false_iff, beq_eq_false_iff_ne, ne_eq] at h0
    obtain ⟨⟨h1, h2⟩, h3⟩ := h0
    rw [List.cons_append, likeMatch_cons_plain _ _ _ h1 h2 h3]
    cases t with
    | nil => simp
    | cons c1 t1 =>
      simp only [Bool.and_eq_true, beq_iff_eq, ih hp1, List.cons_append, List.cons.injEq]
      constructor
      · rintro ⟨rfl, t2, rfl, hm⟩
        exact ⟨t2, ⟨rfl, rfl⟩, hm⟩
      · rintro ⟨t2, ⟨rfl, rfl⟩, hm⟩
        exact ⟨rfl, t2, rfl, hm⟩

/-- A pattern `%v%` whose `v` has no wildcard and no escape character matches exactly the
texts that contain `v`. -/
theorem likeMatch_wrapped_plain (v t : List Char) (hv : ∀ c ∈ v, isLikeMeta c = false) :
    likeMatch ('%' :: (v ++ ['%'])) t = true ↔ v <:+: t := by
  rw [likeMatch_cons_percent, anySuffix_iff, List.infix_iff_prefix_suffix]
  constructor
  · rintro ⟨s, hs, hm⟩
    obtain ⟨t1, rfl, -⟩ := (likeMatch_plain_append v hv ['%'] s).1 hm
    exact ⟨v ++ t1, List.prefix_append v t1, hs⟩
  · rintro ⟨s, ⟨t1, rfl⟩, hs⟩
    exact ⟨v ++ t1, hs, (likeMatch_plain_append v hv ['%'] _).2 ⟨t1, rfl, likeMatch_percent t1⟩⟩

theorem wrapped_data (v : String) : ("%" ++ v ++ "%").data = '%' :: (v.data ++ ['%']) := by
  simp [String.data_append]

/-- C7, as stated, fails: the city value "p_ris" selects the seed listing, whose city is
"Paris", although "p_ris" does not occur in "paris"; the underscore is a LIKE wildcard. -/
theorem city_filter_wildcard_counterexample :
    seedPhone.city = some "Paris" ∧
      selected asciiPlatform { city := some (.str "p_ris") } seedPhone = .ok true ∧
      ¬ containsIgnoringCase asciiPlatform "p_ris" "Paris" := by
  refine ⟨rfl, by decide, by decide⟩

/-- C7, amended: for a non-empty city value c and a non-empty free-text value t whose
lower-cased forms have no `%`, `_` or backslash, the city filter selects exactly the
listings whose city contains c ignoring letter case, and the free-text filter selects
exactly the listings whose title or description contains t ignoring letter case (each
among the listings that the request without that filter selects). -/
theorem text_filters_match_substring (P : Platform) (qc qt : Query) (a : Annonce)
    (c t : String) (hc : qc.city = some (.str c)) (hc0 : c ≠ "") (hcp : isPlain P c)
    (ht : qt.q = some (.str t)) (ht0 : t ≠ "") (htp : isPlain P t) :
    (selected P qc a = .ok true ↔
      (∃ v, a.city = some v ∧ containsIgnoringCase P c v) ∧
        selected P { qc with city := none } a = .ok true) ∧
    (selected P qt a = .ok true ↔
      (containsIgnoringCase P t a.title ∨
          ∃ d, a.description = some d ∧ containsIgnoringCase P t d) ∧
        selected P { qt with q := none } a = .ok true) := by
  constructor
  · rw [selected_iff, selected_iff]
    have hcity : cityCriterion P qc.city a ↔
        ∃ v, a.city = some v ∧ containsIgnoringCase P c v := by
      simp only [cityCriterion, hc, Option.some.injEq, containsIgnoringCase, wrapped_data]
      constructor
      · intro h
        obtain ⟨s, hs, v, hv, hm⟩ := h (.str c) rfl (by simp [QVal.truthy, hc0])
        simp only [QVal.str.injEq] at hs
        subst hs
        exact ⟨v, hv, (likeMatch_wrapped_plain _ _ hcp).1 hm⟩
      · rintro ⟨v, hv, hm⟩ w rfl _
        exact ⟨c, rfl, v, hv, (likeMatch_wrapped_plain _ _ hcp).2 hm⟩
    have hnone : cityCriterion P none a := fun v hv => by simp at hv
    rw [hcity]
    constructor
    · rintro ⟨h1, h2, h3, h4, h5, h6⟩
      exact ⟨h3, h1, h2, hnone, h4, h5, h6⟩
    · rintro ⟨h3, h1, h2, -, h4, h5, h6⟩
      exact ⟨h1, h2, h3, h4, h5, h6⟩
  · rw [selected_iff, selected_iff]
    have htext : textCriterion P qt.q a ↔
        (containsIgnoringCase P t a.title ∨
          ∃ d, a.description = some d ∧ containsIgnoringCase P t d) := by
      simp only [textCriterion, ht, Option.some.injEq, containsIgnoringCase, wrapped_data]
      constructor
      · intro h
        obtain ⟨s, hs, hm⟩ := h (.str t) rfl (by simp [QVal.truthy, ht0])
        simp only [QVal.str.injEq] at hs
        subst hs
        rcases hm with hm | ⟨d, hd, hm⟩
        · exact Or.inl ((likeMatch_wrapped_plain _ _ htp).1 hm)
        · exact Or.inr ⟨d, hd, (likeMatch_wrapped_plain _ _ htp).1 hm⟩
      · rintro (hm | ⟨d, hd, hm⟩) w rfl _
        · exact ⟨t, rfl, Or.inl ((likeMatch_wrapped_plain _ _ htp).2 hm)⟩
        · exact ⟨t, rfl, Or.inr ⟨d, hd, (likeMatch_wrapped_plain _ _ htp).2 hm⟩⟩
    have hnone : textCriterion P none a := fun v hv => by simp at hv
    rw [htext]
    constructor
    · rintro ⟨h1, h2, h3, h4, h5, h6, h7⟩
      exact ⟨h6, h1, h2, h3, h4, h5, hnone, h7⟩
    · rintro ⟨h6, h1, h2, h3, h4, h5, -, h7⟩
      exact ⟨h1, h2, h3, h4, h5, h6, h7⟩

/-- Witness of the amended C7: city "paris" and free text "IPHONE" on the seed listing. -/
theorem text_filters_match_substring_witness :
    (selected asciiPlatform { city := some (.str "paris") } seedPhone = .ok true ↔
      (∃ v, seedPhone.city = some v ∧ containsIgnoringCase asciiPlatform "paris" v) ∧
        selected asciiPlatform { city := none } seedPhone = .ok true) ∧
    (selected asciiPlatform { q := some (.str "IPHONE") } seedPhone = .ok true ↔
      (containsIgnoringCase asciiPlatform "IPHONE" seedPhone.title ∨
          ∃ d, seedPhone.description = some d ∧
            containsIgnoringCase asciiPlatform "IPHONE" d) ∧
        selected asciiPlatform { q := none } seedPhone = .ok true) :=
  text_filters_match_substring asciiPlatform { city := some (.str "paris") }
    { q := some (.str "IPHONE") } seedPhone "paris" "IPHONE" rfl (by decide) (by decide) rfl
    (by decide) (by decide)

/-! ## The filter composer: values travel as bound parameters -/

theorem get?_append_of_some {α : Type} (l more : List α) (n : Nat) (x : α)
    (h : l.get? n = some x) : (l ++ more).get? n = some x := by
  induction l generalizing n with
  | nil => simp at h
  | cons y l ih =>
    cases n with
    | zero => simpa using h
    | succ n => simpa using ih n (by simpa using h)

theorem Builder.binds_of_grows {b b1 : Builder} {c : Cond} {v : Param} (h : b.binds c v)
    (hg : b.Grows b1) : b1.binds c v := by
  obtain ⟨hc, m, hp⟩ := hg
  obtain ⟨h1, h2, h3⟩ := h
  exact ⟨hc c h1, h2, by rw [hp]; exact get?_append_of_some _ _ _ _ h3⟩

theorem Builder.push_binds {b : Builder} {mk : Nat → Cond} (hmk : IsTemplate mk) (v : Param)
    (h : b.WF) : (b.push mk v).binds (mk b.i) v := by
  refine ⟨by simp [Builder.push], ?_, ?_⟩
  · rw [hmk.placeholder, h.1]
    exact Nat.succ_ne_zero _
  · rw [hmk.placeholder, h.1]
    simp [Builder.push, List.get?_eq_getElem?]

/-! ### The text depends on the shape only -/

theorem addStatus_skel (s1 s2 : Option QVal) (b1 b2 : Builder)
    (hs : statusCase s1 = statusCase s2) (hb : b1.skel = b2.skel) :
    (addStatus s1 b1).skel = (addStatus s2 b2).skel := by
  simp only [Builder.skel, Prod.mk.injEq] at hb
  rw [addStatus_eq, addStatus_eq, hs]
  cases hcase : statusCase s2 with
  | absentOrActive => simp [Builder.skel, hb.1, hb.2]
  | all => simp [Builder.skel, hb.1, hb.2]
  | other =>
    rw [hcase] at hs
    cases s1 with
    | none => simp [statusCase] at hs
    | some v1 =>
      cases s2 with
      | none => simp [statusCase] at hcase
      | some v2 => simp [Builder.skel, Builder.push, hb.1, hb.2]

theorem pushIfTruthy_skel (mk : Nat → Cond) (v1 v2 : Option QVal) (b1 b2 : Builder)
    (ht : truthy v1 = truthy v2) (hb : b1.skel = b2.skel) :
    Builder.skel (pushIfTruthy mk v1 b1) =
      Builder.skel (pushIfTruthy mk v2 b2) := by
  simp only [Builder.skel, Prod.mk.injEq] at hb
  unfold pushIfTruthy
  rcases v1 with _ | w1 <;> rcases v2 with _ | w2 <;> simp only [truthy] at ht
  · simp [Builder.skel, hb.1, hb.2]
  · simp [Builder.skel, ← ht, hb.1, hb.2]
  · simp [Builder.skel, ht, hb.1, hb.2]
  · simp only [ht]
    cases w2.truthy <;> simp [Builder.skel, Builder.push, hb.1, hb.2]

theorem cityStep_skel (P1 P2 : Platform) (v1 v2 : Option QVal) (b1 b2 : Builder)
    (h1 : stringOrAbsent v1 = true) (h2 : stringOrAbsent v2 = true)
    (ht : truthy v1 = truthy v2) (hb : b1.skel = b2.skel) :
    (cityStep P1 v1 b1).skel = (cityStep P2 v2 b2).skel := by
  simp only [Builder.skel, Prod.mk.injEq] at hb
  rcases v1 with _ | s1 | i1 | f1 <;> rcases v2 with _ | s2 | i2 | f2 <;>
    simp only [stringOrAbsent, Bool.false_eq_true] at h1 h2 <;>
    simp only [truthy, QVal.truthy] at ht
  · simp [cityStep, Builder.skel, hb.1, hb.2]
  · simp [cityStep, Builder.skel, ← ht, hb.1, hb.2]
  · simp [cityStep, Builder.skel, ht, hb.1, hb.2]
  · simp only [cityStep, ht]
    cases (s2 != "") <;> simp [Builder.skel, Builder.push, hb.1, hb.2]

theorem textStep_skel (P1 P2 : Platform) (v1 v2 : Option QVal) (b1 b2 : Builder)
    (h1 : stringOrAbsent v1 = true) (h2 : stringOrAbsent v2 = true)
    (ht : truthy v1 = truthy v2) (hb : b1.skel = b2.skel) :
    (textStep P1 v1 b1).skel = (textStep P2 v2 b2).skel := by
  simp only [Builder.skel, Prod.mk.injEq] at hb
  rcases v1 with _ | s1 | i1 | f1 <;> rcases v2 with _ | s2 | i2 | f2 <;>
    simp only [stringOrAbsent, Bool.false_eq_true] at h1 h2 <;>
    simp only [truthy, QVal.truthy] at ht
  · simp [textStep, Builder.skel, hb.1, hb.2]
  · simp [textStep, Builder.skel, ← ht, hb.1, hb.2]
  · simp [textStep, Builder.skel, ht, hb.1, hb.2]
  · simp only [textStep, ht]
    cases (s2 != "") <;> simp [Builder.skel, Builder.push, hb.1, hb.2]

/-- The conditions and the placeholder counter depend on the shape of the request only. -/
theorem locals_skeleton (P1 P2 : Platform) (q1 q2 : Query) (h : shape q1 = shape q2)
    (h1 : q1.composes = true) (h2 : q2.composes = true) :
    (locals P1 q1).skel = (locals P2 q2).skel := by
  simp only [shape, Shape.mk.injEq] at h
  obtain ⟨hs, hcat, hcity, hmin, hmax, hq⟩ := h
  obtain ⟨hc1, hq1, -, -⟩ := (composes_iff q1).1 h1
  obtain ⟨hc2, hq2, -, -⟩ := (composes_iff q2).1 h2
  unfold locals
  exact textStep_skel P1 P2 _ _ _ _ hq1 hq2 hq
    (pushIfTruthy_skel Cond.priceLe _ _ _ _ hmax
      (pushIfTruthy_skel Cond.priceGe _ _ _ _ hmin
        (cityStep_skel P1 P2 _ _ _ _ hc1 hc2 hcity
          (pushIfTruthy_skel Cond.categoryEq _ _ _ _ hcat
            (addStatus_skel _ _ _ _ hs rfl)))))

/-! ### Each value sits at its placeholder -/

theorem statement_bound_of_binds (limit offset : JsNum) (b : Builder) (c : Cond)
    (v : Param) (h : b.binds c v) :
    c ∈ (statement b limit offset).conds ∧
      (statement b limit offset).bound c.placeholder = some v := by
  obtain ⟨h1, h2, h3⟩ := h
  refine ⟨h1, ?_⟩
  simp only [Composed.bound, statement, if_neg h2]
  exact get?_append_of_some _ _ _ _ h3

theorem statement_bound_template {mk : Nat → Cond} (hmk : IsTemplate mk)
    (limit offset : JsNum) (b : Builder) (v : Param) (h : ∃ k, b.binds (mk k) v) :
    ∃ k, mk k ∈ (statement b limit offset).conds ∧
      (statement b limit offset).bound k = some v := by
  obtain ⟨k, hk⟩ := h
  have := statement_bound_of_binds limit offset b (mk k) v hk
  rw [hmk.placeholder] at this
  exact ⟨k, this⟩

theorem addStatus_binds (status : Option QVal) (v : QVal) (hs : status = some v)
    (hcase : statusCase status = .other) {b : Builder} (h : b.WF) :
    ∃ k, (addStatus status b).binds (Cond.statusEq k) (.val v) := by
  rw [addStatus_eq, hcase]
  subst hs
  exact ⟨b.i, Builder.push_binds isTemplate_statusEq _ h⟩

theorem pushIfTruthy_binds {mk : Nat → Cond} (hmk : IsTemplate mk) (value : Option QVal)
    (v : QVal) (hs : value = some v) (ht : v.truthy = true) {b : Builder} (h : b.WF) :
    ∃ k, Builder.binds (pushIfTruthy mk value b) (mk k) (.val v) := by
  subst hs
  simp only [pushIfTruthy, ht, if_true]
  exact ⟨b.i, Builder.push_binds hmk _ h⟩

theorem cityStep_binds (P : Platform) (city : Option QVal) (s : String)
    (hs : city = some (.str s)) (h0 : s ≠ "") {b : Builder} (h : b.WF) :
    ∃ k, (cityStep P city b).binds (Cond.cityLike k)
      (.val (.str ("%" ++ P.toLowerCase s ++ "%"))) := by
  subst hs
  simp only [cityStep, bne_iff_ne, ne_eq, h0, not_false_eq_true, if_true]
  exact ⟨b.i, Builder.push_binds isTemplate_cityLike _ h⟩

theorem textStep_binds (P : Platform) (q : Option QVal) (s : String)
    (hs : q = some (.str s)) (h0 : s ≠ "") {b : Builder} (h : b.WF) :
    ∃ k, (textStep P q b).binds (Cond.textLike k)
      (.val (.str ("%" ++ P.toLowerCase s ++ "%"))) := by
  subst hs
  simp only [textStep, bne_iff_ne, ne_eq, h0, not_false_eq_true, if_true]
  exact ⟨b.i, Builder.push_binds isTemplate_textLike _ h⟩

/-- C10: criteria values travel as bound parameters of GET /api/annonces.  Two requests of
the same shape (the same criteria supplied, the status in the same case) for which a
statement is composed compose the same SQL text, whatever their values and whatever the
lower-casing; and in a composed statement each supplied value (for city and q: its
lower-cased form between two `%`) is the parameter bound to the placeholder that its
condition names. -/
theorem values_are_bound_parameters (P1 P2 : Platform) (q1 q2 : Query)
    (h : shape q1 = shape q2) (h1 : q1.composes = true) (h2 : q2.composes = true) :
    ∃ c1 c2, compose P1 q1 = .ok c1 ∧ compose P2 q2 = .ok c2 ∧ c1.sql = c2.sql ∧
    (∀ v, q1.status = some v → statusCase q1.status = .other →
      ∃ k, Cond.statusEq k ∈ c1.conds ∧ c1.bound k = some (.val v)) ∧
    (∀ v, q1.category_id = some v → v.truthy = true →
      ∃ k, Cond.categoryEq k ∈ c1.conds ∧ c1.bound k = some (.val v)) ∧
    (∀ s, q1.city = some (.str s) → s ≠ "" →
      ∃ k, Cond.cityLike k ∈ c1.conds ∧
        c1.bound k = some (.val (.str ("%" ++ P1.toLowerCase s ++ "%")))) ∧
    (∀ v, q1.price_min = some v → v.truthy = true →
      ∃ k, Cond.priceGe k ∈ c1.conds ∧ c1.bound k = some (.val v)) ∧
    (∀ v, q1.price_max = some v → v.truthy = true →
      ∃ k, Cond.priceLe k ∈ c1.conds ∧ c1.bound k = some (.val v)) ∧
    (∀ s, q1.q = some (.str s) → s ≠ "" →
      ∃ k, Cond.textLike k ∈ c1.conds ∧
        c1.bound k = some (.val (.str ("%" ++ P1.toLowerCase s ++ "%")))) := by
  obtain ⟨pg1, lm1, -, -, hcmp1⟩ := compose_of_composes P1 q1 h1
  obtain ⟨pg2, lm2, -, -, hcmp2⟩ := compose_of_composes P2 q2 h2
  refine ⟨_, _, hcmp1, hcmp2, ?_⟩
  have h0 := initial_wf
  have w1 := addStatus_wf q1.status h0
  have w2 := addCategory_wf q1.category_id w1
  have w3 := cityStep_wf P1 q1.city w2
  have w4 := addPriceMin_wf q1.price_min w3
  have w5 := addPriceMax_wf q1.price_max w4
  have g2 := addCategory_grows q1.category_id
    (addStatus q1.status { conds := [], params := [], i := 1 })
  have g3 := cityStep_grows P1 q1.city (addCategory q1.category_id
    (addStatus q1.status { conds := [], params := [], i := 1 }))
  have g4 := addPriceMin_grows q1.price_min (cityStep P1 q1.city (addCategory q1.category_id
    (addStatus q1.status { conds := [], params := [], i := 1 })))
  have g5 := addPriceMax_grows q1.price_max (addPriceMin q1.price_min (cityStep P1 q1.city
    (addCategory q1.category_id (addStatus q1.status { conds := [], params := [], i := 1 }))))
  have g6 := textStep_grows P1 q1.q (addPriceMax q1.price_max (addPriceMin q1.price_min
    (cityStep P1 q1.city (addCategory q1.category_id
      (addStatus q1.status { conds := [], params := [], i := 1 })))))
  refine ⟨?_, ?_, ?_, ?_, ?_, ?_, ?_⟩
  · have hsk := locals_skeleton P1 P2 q1 q2 h h1 h2
    simp only [Builder.skel, Prod.mk.injEq] at hsk
    simp only [statement, hsk.1, hsk.2]
  · intro v hs hcase
    obtain ⟨k, hk⟩ := addStatus_binds q1.status v hs hcase h0
    exact statement_bound_template isTemplate_statusEq _ _ _ _
      ⟨k, Builder.binds_of_grows hk (Builder.grows_trans g2 (Builder.grows_trans g3
        (Builder.grows_trans g4 (Builder.grows_trans g5 g6))))⟩
  · intro v hs ht
    obtain ⟨k, hk⟩ := pushIfTruthy_binds isTemplate_categoryEq q1.category_id v hs ht w1
    exact statement_bound_template isTemplate_categoryEq _ _ _ _
      ⟨k, Builder.binds_of_grows hk (Builder.grows_trans g3
        (Builder.grows_trans g4 (Builder.grows_trans g5 g6)))⟩
  · intro s hs hne
    obtain ⟨k, hk⟩ := cityStep_binds P1 q1.city s hs hne w2
    exact statement_bound_template isTemplate_cityLike _ _ _ _
      ⟨k, Builder.binds_of_grows hk (Builder.grows_trans g4 (Builder.grows_trans g5 g6))⟩
  · intro v hs ht
    obtain ⟨k, hk⟩ := pushIfTruthy_binds isTemplate_priceGe q1.price_min v hs ht w3
    exact statement_bound_template isTemplate_priceGe _ _ _ _
      ⟨k, Builder.binds_of_grows hk (Builder.grows_trans g5 g6)⟩
  · intro v hs ht
    obtain ⟨k, hk⟩ := pushIfTruthy_binds isTemplate_priceLe q1.price_max v hs ht w4
    exact statement_bound_template isTemplate_priceLe _ _ _ _
      ⟨k, Builder.binds_of_grows hk g6⟩
  · intro s hs hne
    obtain ⟨k, hk⟩ := textStep_binds P1 q1.q s hs hne w5
    exact statement_bound_template isTemplate_textLike _ _ _ _ ⟨k, hk⟩

/-- Witness of C10: two requests that supply a city and a free text, with different values,
one of them carrying SQL fragments. -/
theorem values_are_bound_parameters_witness :
    ∃ c1 c2,
      compose asciiPlatform { city := some (.str "Paris"), q := some (.str "vélo") }
        = .ok c1 ∧
      compose asciiPlatform
        { city := some (.str "x' OR '1'='1"), q := some (.str "'; DROP TABLE annonces; --") }
        = .ok c2 ∧
      c1.sql = c2.sql := by
  obtain ⟨c1, c2, h1, h2, h3, -⟩ := values_are_bound_parameters asciiPlatform asciiPlatform
    { city := some (.str "Paris"), q := some (.str "vélo") }
    { city := some (.str "x' OR '1'='1"), q := some (.str "'; DROP TABLE annonces; --") }
    (by decide) (by decide) (by decide)
  exact ⟨c1, c2, h1, h2, h3⟩
/-! ## The conversation broker -/

/-- C3: the owner of a listing cannot open a conversation on it.  When the caller is the
owner that the store reports for the listing, POST /api/conversations answers 400 with
the message "Impossible de se contacter soi-même" and leaves the store, hence the
conversations relation, as it was. -/
theorem owner_cannot_contact_self (s : Store) (caller annonce_id : Nat)
    (howner : s.ownerOf annonce_id = some caller) :
    (postConversations s caller annonce_id).2
        = { status := 400, body := .error "Impossible de se contacter soi-même" } ∧
      (postConversations s caller annonce_id).1.conversations = s.conversations ∧
      (postConversations s caller annonce_id).1 = s := by
  simp [postConversations, howner]

/-- Witness of C3: the seller of the seed data on the first seed listing. -/
theorem owner_cannot_contact_self_witness :
    (postConversations seedStore 1 1).2
        = { status := 400, body := .error "Impossible de se contacter soi-même" } ∧
      (postConversations seedStore 1 1).1.conversations = seedStore.conversations ∧
      (postConversations seedStore 1 1).1 = seedStore :=
  owner_cannot_contact_self seedStore 1 1 (by decide)

/-- C4, as stated, fails.  A caller with no `users` row (id 7) asks for the first seed
listing: the insert fails on the foreign key of `buyer_id`, and the handler answers 200
with an empty body.  Likewise when the listing is gone by the time of the insert (the
second listing removed after its owner was read): the insert fails on the foreign key of
`annonce_id` and the answer is 200 with an empty body. -/
theorem fallback_on_foreign_key_counterexample :
    (seedStore.insertConversation 1 7 1).2
        = .error (.foreignKeyViolation "conversations_buyer_id_fkey") ∧
      (postConversations seedStore 7 1).2 = { status := 200, body := .undefined } ∧
      ({ seedStore with annonces := [seedPhone] }.insertConversation 2 2 1).2
        = .error (.foreignKeyViolation "conversations_annonce_id_fkey") ∧
      (openConversation { seedStore with annonces := [seedPhone] } 2 2 1).2
        = { status := 200, body := .undefined } := by
  decide

theorem insertConversation_error_store (s : Store) (annonce_id buyer_id seller_id : Nat)
    (e : DbError) (h : (s.insertConversation annonce_id buyer_id seller_id).2 = .error e) :
    (s.insertConversation annonce_id buyer_id seller_id).1
      = { s with conversations_id_seq := s.conversations_id_seq + 1 } := by
  unfold Store.insertConversation at h ⊢
  simp only at h ⊢
  split_ifs at h ⊢ <;> rfl

theorem insertConversation_unique_error (s : Store) (annonce_id buyer_id seller_id : Nat)
    (h : (s.insertConversation annonce_id buyer_id seller_id).2
      = .error (.uniqueViolation "conversations_annonce_id_buyer_id_key")) :
    s.conversations.any (fun c => c.annonce_id == annonce_id && c.buyer_id == buyer_id)
      = true := by
  unfold Store.insertConversation at h
  simp only at h
  split_ifs at h with h1 h2 h3 h4 h5
  · simp at h
  · exact h2
  all_goals simp at h

/-- C4, amended: in POST /api/conversations (listing found, caller not its owner) the
fallback is taken on every failure of the insert, of whatever kind: the answer is then 200
with the first conversation the lookup for (listing, caller) finds, and the conversations
relation is unchanged.  When the failure is the uniqueness constraint on (listing, buyer),
the lookup finds a row and the answer carries that existing conversation. -/
theorem fallback_on_any_insert_failure (s : Store) (caller annonce_id owner : Nat)
    (e : DbError) (howner : s.ownerOf annonce_id = some owner) (hne : owner ≠ caller)
    (hfail : (s.insertConversation annonce_id caller owner).2 = .error e) :
    (postConversations s caller annonce_id).2 =
        { status := 200
          body :=
            match s.conversationsFor annonce_id caller with
            | [] => .undefined
            | row :: _ => .conversation row } ∧
      (postConversations s caller annonce_id).1.conversations = s.conversations ∧
      (e = .uniqueViolation "conversations_annonce_id_buyer_id_key" →
        ∃ row, row ∈ s.conversations ∧ row.annonce_id = annonce_id ∧ row.buyer_id = caller ∧
          (postConversations s caller annonce_id).2
            = { status := 200, body := .conversation row }) := by
  have hstore := insertConversation_error_store s annonce_id caller owner e hfail
  have hpost : postConversations s caller annonce_id =
      match s.conversationsFor annonce_id caller with
      | [] => ({ s with conversations_id_seq := s.conversations_id_seq + 1 },
          { status := 200, body := .undefined })
      | row :: _ => ({ s with conversations_id_seq := s.conversations_id_seq + 1 },
          { status := 200, body := .conversation row }) := by
    simp only [postConversations, howner, if_neg hne, openConversation]
    rcases hins : s.insertConversation annonce_id caller owner with ⟨s1, r⟩
    rw [hins] at hfail hstore
    simp only at hfail hstore
    subst hfail hstore
    rfl
  refine ⟨?_, ?_, ?_⟩
  · rw [hpost]
    cases s.conversationsFor annonce_id caller <;> rfl
  · rw [hpost]
    cases s.conversationsFor annonce_id caller <;> rfl
  · intro he
    subst he
    have hany := insertConversation_unique_error s annonce_id caller owner hfail
    rw [hpost]
    cases hl : s.conversationsFor annonce_id caller with
    | nil =>
      exfalso
      simp only [List.any_eq_true] at hany
      obtain ⟨c, hc, hp⟩ := hany
      have : c ∈ s.conversationsFor annonce_id caller := by
        simp only [Store.conversationsFor, List.mem_filter]
        exact ⟨hc, hp⟩
      rw [hl] at this
      simp at this
    | cons row rest =>
      have hmem : row ∈ s.conversationsFor annonce_id caller := by simp [hl]
      simp only [Store.conversationsFor, List.mem_filter, Bool.and_eq_true, beq_iff_eq] at hmem
      exact ⟨row, hmem.1, hmem.2.1, hmem.2.2, rfl⟩

/-- Witness of the amended C4: the buyer of the seed data asks again for the first seed
listing; the insert fails on the uniqueness constraint. -/
theorem fallback_on_any_insert_failure_witness :
    (postConversations seedStore 2 1).2 =
        { status := 200
          body :=
            match seedStore.conversationsFor 1 2 with
            | [] => .undefined
            | row :: _ => .conversation row } ∧
      (postConversations seedStore 2 1).1.conversations = seedStore.conversations ∧
      (DbError.uniqueViolation "conversations_annonce_id_buyer_id_key"
          = .uniqueViolation "conversations_annonce_id_buyer_id_key" →
        ∃ row, row ∈ seedStore.conversations ∧ row.annonce_id = 1 ∧ row.buyer_id = 2 ∧
          (postConversations seedStore 2 1).2
            = { status := 200, body := .conversation row }) :=
  fallback_on_any_insert_failure seedStore 2 1 1
    (.uniqueViolation "conversations_annonce_id_buyer_id_key") (by decide) (by decide)
    (by decide)

/-! ## Access to the messages of a conversation -/

theorem participantRows_missing (s : Store) (caller missing : Nat)
    (h : ∀ d ∈ s.conversations, d.id ≠ missing) : s.participantRows missing caller = [] := by
  simp only [Store.participantRows, List.filter_eq_nil_iff, Bool.and_eq_true, beq_iff_eq,
    not_and]
  intro d hd hid
  exact absurd hid (h d hd)

theorem participantRows_outsider (s : Store) (c : Conversation) (caller : Nat)
    (hpk : ∀ d ∈ s.conversations, d.id = c.id → d = c)
    (hb : caller ≠ c.buyer_id) (hs : caller ≠ c.seller_id) :
    s.participantRows c.id caller = [] := by
  simp only [Store.participantRows, List.filter_eq_nil_iff, Bool.and_eq_true, beq_iff_eq,
    Bool.or_eq_true, not_and, not_or]
  intro d hd hid
  rw [hpk d hd hid]
  exact ⟨fun h => hb h.symm, fun h => hs h.symm⟩

/-- C5: a user who is neither buyer nor seller of a conversation gets, for reading its
messages and for posting to it, exactly the answer given for a conversation id that does
not exist (403 "Accès refusé"), and the post leaves the store, hence the messages
relation, unchanged.  The conversation is the row its primary key identifies. -/
theorem outsider_indistinguishable_from_missing (s : Store) (c : Conversation)
    (caller missing : Nat) (content : Option String)
    (_hc : c ∈ s.conversations) (hpk : ∀ d ∈ s.conversations, d.id = c.id → d = c)
    (hb : caller ≠ c.buyer_id) (hs : caller ≠ c.seller_id)
    (hmissing : ∀ d ∈ s.conversations, d.id ≠ missing) :
    getMessages s caller c.id = getMessages s caller missing ∧
      postMessage s caller c.id content = postMessage s caller missing content ∧
      (postMessage s caller c.id content).1.messages = s.messages ∧
      getMessages s caller c.id = { status := 403, body := .error "Accès refusé" } ∧
      (postMessage s caller c.id content).2
        = .ok { status := 403, body := .error "Accès refusé" } := by
  have h1 := participantRows_outsider s c caller hpk hb hs
  have h2 := participantRows_missing s caller missing hmissing
  simp [getMessages, postMessage, h1, h2]

/-- Witness of C5: on the seed store, user 3 on conversation 1 (buyer 2, seller 1), compared
with the absent conversation 99. -/
theorem outsider_indistinguishable_from_missing_witness :
    getMessages seedStore 3 1 = getMessages seedStore 3 99 ∧
      postMessage seedStore 3 1 (some "Bonjour") = postMessage seedStore 3 99 (some "Bonjour") ∧
      (postMessage seedStore 3 1 (some "Bonjour")).1.messages = seedStore.messages ∧
      getMessages seedStore 3 1 = { status := 403, body := .error "Accès refusé" } ∧
      (postMessage seedStore 3 1 (some "Bonjour")).2
        = .ok { status := 403, body := .error "Accès refusé" } :=
  outsider_indistinguishable_from_missing seedStore
    { id := 1, annonce_id := 1, buyer_id := 2, seller_id := 1 } 3 99 (some "Bonjour")
    (by decide) (by decide) (by decide) (by decide) (by decide)

/-! ## Opening a conversation twice -/

/-- C2, as stated, fails.  The seed store satisfies UNIQUE(annonce_id, buyer_id), the first
seed listing exists, and the caller with id 7 is not its owner; but 7 has no `users` row,
so both calls answer 200 with an empty body (no conversation id) and the store holds no
conversation for (listing 1, buyer 7) afterwards. -/
theorem open_twice_unregistered_counterexample :
    seedStore.conversationsUnique ∧ seedStore.ownerOf 1 = some 1 ∧
      (postConversations seedStore 7 1).2 = { status := 200, body := .undefined } ∧
      (postConversations (postConversations seedStore 7 1).1 7 1).2
        = { status := 200, body := .undefined } ∧
      (repeatPost seedStore 7 1 2).conversationsFor 1 7 = [] := by
  refine ⟨by decide, by decide, by decide, by decide, by decide⟩

theorem sequenceAhead_no_clash (s : Store) (h : s.sequenceAhead) :
    s.conversations.any (fun c => c.id == s.conversations_id_seq + 1) = false := by
  rw [List.any_eq_false]
  intro c hc
  have := h c hc
  simp only [beq_iff_eq]
  omega

theorem ownerOf_hasAnnonce (s : Store) (annonce_id owner : Nat)
    (h : s.ownerOf annonce_id = some owner) : s.hasAnnonce annonce_id = true := by
  unfold Store.ownerOf at h
  unfold Store.hasAnnonce
  cases hf : s.annonces.filter (fun a => a.id == annonce_id) with
  | nil => simp [hf] at h
  | cons a rest =>
    have hmem : a ∈ s.annonces.filter (fun a => a.id == annonce_id) := by simp [hf]
    rw [List.mem_filter] at hmem
    exact List.any_eq_true.2 ⟨a, hmem.1, hmem.2⟩

theorem conversationsFor_any (s : Store) (annonce_id buyer_id : Nat) :
    s.conversations.any (fun c => c.annonce_id == annonce_id && c.buyer_id == buyer_id)
      = !(s.conversationsFor annonce_id buyer_id).isEmpty := by
  unfold Store.conversationsFor
  induction s.conversations with
  | nil => rfl
  | cons c l ih =>
    by_cases hp : (c.annonce_id == annonce_id && c.buyer_id == buyer_id) = true
    · simp [List.filter_cons, hp]
    · simp only [Bool.not_eq_true] at hp
      simp [List.filter_cons, hp, ih]

/-- A call that finds a conversation of (listing, caller) in place answers 200 with the
first such row and changes nothing but the sequence. -/
theorem postConversations_existing (s : Store) (caller annonce_id owner : Nat)
    (row : Conversation) (rest : List Conversation)
    (hseq : s.sequenceAhead) (howner : s.ownerOf annonce_id = some owner)
    (hne : owner ≠ caller) (hrows : s.conversationsFor annonce_id caller = row :: rest) :
    postConversations s caller annonce_id =
      ({ s with conversations_id_seq := s.conversations_id_seq + 1 },
        { status := 200, body := .conversation row }) := by
  have hpk := sequenceAhead_no_clash s hseq
  have hany := conversationsFor_any s annonce_id caller
  rw [hrows] at hany
  simp only [List.isEmpty_cons, Bool.not_false] at hany
  have hins : s.insertConversation annonce_id caller owner =
      ({ s with conversations_id_seq := s.conversations_id_seq + 1 },
        .error (.uniqueViolation "conversations_annonce_id_buyer_id_key")) := by
    unfold Store.insertConversation
    simp only [hpk, hany, if_true, Bool.false_eq_true, if_false]
  have hfor : Store.conversationsFor
      { s with conversations_id_seq := s.conversations_id_seq + 1 } annonce_id caller
        = row :: rest := hrows
  simp only [postConversations, howner, if_neg hne, openConversation, hins, hfor]

/-- A call that finds no conversation of (listing, caller), with both parties registered,
answers 201 with the new row and appends it. -/
theorem postConversations_fresh (s : Store) (caller annonce_id owner : Nat)
    (hseq : s.sequenceAhead) (howner : s.ownerOf annonce_id = some owner)
    (hne : owner ≠ caller) (hbuyer : s.isUser caller = true) (hseller : s.isUser owner = true)
    (hrows : s.conversationsFor annonce_id caller = []) :
    postConversations s caller annonce_id =
      ({ s with
          conversations_id_seq := s.conversations_id_seq + 1
          conversations := s.conversations ++
            [{ id := s.conversations_id_seq + 1, annonce_id := annonce_id,
               buyer_id := caller, seller_id := owner }] },
        { status := 201
          body := .conversation
            { id := s.conversations_id_seq + 1, annonce_id := annonce_id,
              buyer_id := caller, seller_id := owner } }) := by
  have hpk := sequenceAhead_no_clash s hseq
  have hany := conversationsFor_any s annonce_id caller
  rw [hrows] at hany
  simp only [List.isEmpty_nil, Bool.not_true] at hany
  have hann := ownerOf_hasAnnonce s annonce_id owner howner
  have hins : s.insertConversation annonce_id caller owner =
      ({ s with
          conversations_id_seq := s.conversations_id_seq + 1
          conversations := s.conversations ++
            [{ id := s.conversations_id_seq + 1, annonce_id := annonce_id,
               buyer_id := caller, seller_id := owner }] },
        .ok { id := s.conversations_id_seq + 1, annonce_id := annonce_id,
              buyer_id := caller, seller_id := owner }) := by
    unfold Store.insertConversation
    simp only [hpk, hany, hann, hbuyer, hseller, Bool.false_eq_true, if_false, Bool.not_true]
  simp only [postConversations, howner, if_neg hne, openConversation, hins]

theorem conversationsFor_at_most_one (s : Store) (annonce_id buyer_id : Nat)
    (row : Conversation) (rest : List Conversation) (huniq : s.conversationsUnique)
    (hrows : s.conversationsFor annonce_id buyer_id = row :: rest) : rest = [] := by
  have hsub : (s.conversationsFor annonce_id buyer_id).Pairwise
      (fun c d => ¬ (c.annonce_id = d.annonce_id ∧ c.buyer_id = d.buyer_id)) :=
    List.Pairwise.sublist (List.filter_sublist _) huniq
  rw [hrows, List.pairwise_cons] at hsub
  have hkey : ∀ d ∈ s.conversationsFor annonce_id buyer_id,
      d.annonce_id = annonce_id ∧ d.buyer_id = buyer_id := by
    intro d hd
    simp only [Store.conversationsFor, List.mem_filter, Bool.and_eq_true, beq_iff_eq] at hd
    exact hd.2
  rw [hrows] at hkey
  have hrow := hkey row (List.mem_cons_self _ _)
  cases rest with
  | nil => rfl
  | cons d rest1 =>
    exfalso
    have hd := hkey d (List.mem_cons_of_mem _ (List.mem_cons_self _ _))
    exact hsub.1 d (List.mem_cons_self _ _) ⟨hrow.1.trans hd.1.symm, hrow.2.trans hd.2.symm⟩

theorem Settled.step {s : Store} {caller annonce_id owner : Nat} {row : Conversation}
    (h : Settled s caller annonce_id owner row) (hne : owner ≠ caller) :
    (postConversations s caller annonce_id).2 = { status := 200, body := .conversation row } ∧
      Settled (postConversations s caller annonce_id).1 caller annonce_id owner row := by
  obtain ⟨hseq, howner, hrows⟩ := h
  rw [postConversations_existing s caller annonce_id owner row [] hseq howner hne hrows]
  refine ⟨rfl, ?_, howner, hrows⟩
  intro c hc
  exact Nat.le_succ_of_le (hseq c hc)

theorem Settled.repeatPost {s : Store} {caller annonce_id owner : Nat} {row : Conversation}
    (h : Settled (postConversations s caller annonce_id).1 caller annonce_id owner row)
    (hne : owner ≠ caller) (n : Nat) :
    Settled (repeatPost s caller annonce_id (n + 1)) caller annonce_id owner row := by
  induction n with
  | zero => exact h
  | succ n ih => exact (ih.step hne).2

/-- C2, amended: opening a conversation is idempotent for registered users.  In a store
that satisfies UNIQUE(annonce_id, buyer_id) and whose conversation ids were issued by the
sequence, for an existing listing whose owner has a `users` row and a caller with a `users`
row who is not the owner: the first call of POST /api/conversations answers with a
conversation, the second call answers 200 with that same conversation, and after any
number n ≥ 1 of such calls that row is the one conversation of (listing, caller). -/
theorem open_conversation_idempotent (s : Store) (caller annonce_id owner : Nat)
    (huniq : s.conversationsUnique) (hseq : s.sequenceAhead)
    (howner : s.ownerOf annonce_id = some owner) (hne : owner ≠ caller)
    (hbuyer : s.isUser caller = true) (hseller : s.isUser owner = true) :
    ∃ row : Conversation,
      (postConversations s caller annonce_id).2.body = .conversation row ∧
      (postConversations (postConversations s caller annonce_id).1 caller annonce_id).2
        = { status := 200, body := .conversation row } ∧
      ∀ n, 1 ≤ n → (repeatPost s caller annonce_id n).conversationsFor annonce_id caller
        = [row] := by
  have key : ∃ row : Conversation,
      (postConversations s caller annonce_id).2.body = .conversation row ∧
        Settled (postConversations s caller annonce_id).1 caller annonce_id owner row := by
    cases hrows : s.conversationsFor annonce_id caller with
    | nil =>
      refine ⟨{ id := s.conversations_id_seq + 1, annonce_id := annonce_id,
                buyer_id := caller, seller_id := owner }, ?_, ?_⟩
      · rw [postConversations_fresh s caller annonce_id owner hseq howner hne hbuyer hseller
          hrows]
      · rw [postConversations_fresh s caller annonce_id owner hseq howner hne hbuyer hseller
          hrows]
        refine ⟨?_, howner, ?_⟩
        · intro c hc
          simp only [List.mem_append, List.mem_singleton] at hc
          rcases hc with hc | rfl
          · exact Nat.le_succ_of_le (hseq c hc)
          · exact Nat.le_refl _
        · unfold Store.conversationsFor at hrows ⊢
          simp only [List.filter_append, hrows, List.nil_append]
          simp [List.filter_cons]
    | cons row rest =>
      have hrest := conversationsFor_at_most_one s annonce_id caller row rest huniq hrows
      subst hrest
      have hs : Settled s caller annonce_id owner row := ⟨hseq, howner, hrows⟩
      exact ⟨row, by rw [(hs.step hne).1], (hs.step hne).2⟩
  obtain ⟨row, hfirst, hsettled⟩ := key
  refine ⟨row, hfirst, (hsettled.step hne).1, ?_⟩
  intro n hn
  obtain ⟨m, rfl⟩ : ∃ m, n = m + 1 := ⟨n - 1, by omega⟩
  exact (Settled.repeatPost hsettled hne m).2.2

/-- Witness of the amended C2: the buyer of the seed data (id 2) opens a conversation on
the second seed listing, owned by the seller (id 1). -/
theorem open_conversation_idempotent_witness :
    ∃ row : Conversation,
      (postConversations seedStore 2 2).2.body = .conversation row ∧
      (postConversations (postConversations seedStore 2 2).1 2 2).2
        = { status := 200, body := .conversation row } ∧
      ∀ n, 1 ≤ n → (repeatPost seedStore 2 2 n).conversationsFor 2 2 = [row] :=
  open_conversation_idempotent seedStore 2 2 1 (by decide) (by decide) (by decide)
    (by decide) (by decide) (by decide)

end VendreFacile
